import Mathlib

/-!
Verification of the MAU-data-scraper extraction pipeline
(src/mau_scraper_v2.py) against its natural-language specification.

Python strings are modelled as lists of Unicode code points (`List Nat`);
the case/whitespace/digit operations of the source act on ASCII data, and
the model implements them on code points exactly as CPython does for the
ASCII range.  Python dict records are modelled by the structure `CallRec`
whose fields are `PyVal` (JSON-ish dynamic values); a Python `dict.get`
returning `None` for a missing key is identified with the field holding
`PyVal.none`, which is how every access in `_sanitize_call`,
`_verify_calls` and `parse_transcripts` reads these keys.  A raised
exception (`AttributeError` from calling `.lower()` / `.strip()` on a
non-string) is modelled by `Except.error`.
-/

set_option maxRecDepth 4000
set_option maxHeartbeats 1000000

/-- Code points of a string literal (model of a Python `str` constant). -/
def S (s : String) : List Nat := s.toList.map Char.toNat

/-- Python `\s` / `str.strip()` whitespace, ASCII range: space, \t, \n, \r, \v, \f. -/
def isSp (n : Nat) : Bool := n == 32 || n == 9 || n == 10 || n == 13 || n == 11 || n == 12

/-- ASCII decimal digit (Python `\d`, ASCII range). -/
def isD (n : Nat) : Bool := 48 ≤ n && n ≤ 57

/-- ASCII uppercase letter. -/
def isUpC (n : Nat) : Bool := 65 ≤ n && n ≤ 90

/-- ASCII lowercase letter. -/
def isLoC (n : Nat) : Bool := 97 ≤ n && n ≤ 122

/-- ASCII letter (used for `str.title` word boundaries). -/
def isAl (n : Nat) : Bool := isUpC n || isLoC n

/-- `str.lower` on one code point (ASCII range). -/
def loC (n : Nat) : Nat := if isUpC n then n + 32 else n

/-- `str.upper` on one code point (ASCII range). -/
def upC (n : Nat) : Nat := if isLoC n then n - 32 else n

/-- `str.lower`. -/
def lowStr (s : List Nat) : List Nat := s.map loC

/-- `str.upper`. -/
def upStr (s : List Nat) : List Nat := s.map upC

/-- `str.strip()`: drop whitespace from both ends. -/
def strip (s : List Nat) : List Nat :=
  ((s.dropWhile isSp).reverse.dropWhile isSp).reverse

/-- Worker for `str.title`: `prevAl` records whether the previous character
was alphabetic (a letter opens a new word exactly when it is not). -/
def titleGo (prevAl : Bool) : List Nat → List Nat
  | [] => []
  | c :: rest =>
    (if isAl c then (if prevAl then loC c else upC c) else c) :: titleGo (isAl c) rest

/-- `str.title()` (ASCII range). -/
def title (s : List Nat) : List Nat := titleGo false s

/-- Dynamic (JSON-decoded) Python value as it can appear in a record field.
`PyVal.none` also stands for an absent key, since every access in the
source goes through `dict.get`. -/
inductive PyVal where
  | none : PyVal
  | bool : Bool → PyVal
  | int : Int → PyVal
  | str : List Nat → PyVal
deriving DecidableEq, Repr

/-- Python truthiness of a `PyVal`. -/
def PyVal.truthy : PyVal → Bool
  | .none => false
  | .bool b => b
  | .int n => n != 0
  | .str s => s != []

/-- The `AttributeError` raised by `.lower()` / `.strip()` on a non-string. -/
inductive SErr where
  | attributeError : SErr
deriving DecidableEq, Repr

/-- One extracted call record (Python dict).  Fields are exactly the keys
read or written by `_sanitize_call`, `_verify_calls`, `_resolve_timestamps`
and the per-chunk loop of `parse_transcripts`. -/
structure CallRec where
  caller_name : PyVal := .none
  country : PyVal := .none
  state_or_region : PyVal := .none
  city : PyVal := .none
  call_type : PyVal := .none
  call_type_secondary : PyVal := .none
  description : PyVal := .none
  date_of_event : PyVal := .none
  time_of_event : PyVal := .none
  setting : PyVal := .none
  involves_other_witnesses : PyVal := .none
  caller_emotional_tone : PyVal := .none
  derek_commentary : PyVal := .none
  caller_intro_snippet : PyVal := .none
  season : PyVal := .none
  episode : PyVal := .none
  episode_title : PyVal := .none
  release_date : PyVal := .none
  verified : PyVal := .none
  verification_evidence : PyVal := .none
deriving DecidableEq, Repr

/-- VALID_TONES (source line 507). -/
def VALID_TONES : List (List Nat) :=
  [S "scared", S "calm", S "nostalgic", S "humorous", S "matter-of-fact", S "emotional"]

/-- VALID_ENTITY_LABELS (source lines 509-527).  The source holds these in a
Python set; they are pairwise distinct case-insensitively (lemma
`labels_ci_nodup` below), so modelling the set's iteration order by this
textual order does not affect any result. -/
def VALID_ENTITY_LABELS : List (List Nat) :=
  [S "Bigfoot/Sasquatch", S "Dogman", S "Mothman", S "Skinwalker", S "Wendigo", S "Thunderbird",
   S "Crawler/Rake", S "Chupacabra", S "Mutant Canine/Turner Beast", S "Lake Monster",
   S "Black-Eyed Kids (BEK)", S "Not Deer", S "Goatman", S "Jersey Devil", S "Unknown Cryptid",
   S "Ghost/Apparition", S "Shadow Person", S "Hat Man", S "Old Hag", S "Poltergeist",
   S "Demonic Entity", S "Angel/Positive Spirit", S "Doppelganger", S "Residual Haunting",
   S "Intelligent Haunting", S "Portal/Vortex", S "Afterlife Communication (ADC)",
   S "Sleep Paralysis Entity",
   S "UFO/UAP", S "Black Triangle", S "Orb/Light", S "Fireball", S "Phantom Lights",
   S "Abduction", S "Alien Entity", S "Satellite/Rocket (Explained)",
   S "Missing Time", S "Glitch in the Matrix", S "Time Slip", S "Premonition/Precognition",
   S "Telepathy", S "Psychic Experience", S "Astral Projection", S "Aura/Energy",
   S "Synchronicity", S "Men in Black", S "Phantom Person", S "Vanishing Object",
   S "Dime/Coin from the Dead",
   S "Phantom Sound", S "Phantom Smell", S "Unexplained Animal Behavior",
   S "Electronic Malfunction", S "Temperature Anomaly",
   S "Coincidence", S "Unidentified Animal", S "Explained (mundane)", S "Dream/Vision",
   S "Curse/Hex", S "Fairy/Fae", S "Humanoid (unclassified)", S "Other"]

/-- STATE_ABBREV_TO_FULL (source lines 529-541). -/
def STATE_ABBREV_TO_FULL : List (List Nat × List Nat) :=
  [(S "AL", S "Alabama"), (S "AK", S "Alaska"), (S "AZ", S "Arizona"), (S "AR", S "Arkansas"),
   (S "CA", S "California"), (S "CO", S "Colorado"), (S "CT", S "Connecticut"),
   (S "DE", S "Delaware"), (S "FL", S "Florida"), (S "GA", S "Georgia"),
   (S "HI", S "Hawaii"), (S "ID", S "Idaho"), (S "IL", S "Illinois"), (S "IN", S "Indiana"),
   (S "IA", S "Iowa"), (S "KS", S "Kansas"), (S "KY", S "Kentucky"), (S "LA", S "Louisiana"),
   (S "ME", S "Maine"), (S "MD", S "Maryland"), (S "MA", S "Massachusetts"),
   (S "MI", S "Michigan"), (S "MN", S "Minnesota"), (S "MS", S "Mississippi"),
   (S "MO", S "Missouri"), (S "MT", S "Montana"), (S "NE", S "Nebraska"), (S "NV", S "Nevada"),
   (S "NH", S "New Hampshire"), (S "NJ", S "New Jersey"), (S "NM", S "New Mexico"),
   (S "NY", S "New York"), (S "NC", S "North Carolina"), (S "ND", S "North Dakota"),
   (S "OH", S "Ohio"), (S "OK", S "Oklahoma"), (S "OR", S "Oregon"), (S "PA", S "Pennsylvania"),
   (S "RI", S "Rhode Island"), (S "SC", S "South Carolina"), (S "SD", S "South Dakota"),
   (S "TN", S "Tennessee"), (S "TX", S "Texas"), (S "UT", S "Utah"), (S "VT", S "Vermont"),
   (S "VA", S "Virginia"), (S "WA", S "Washington"), (S "WV", S "West Virginia"),
   (S "WI", S "Wisconsin"), (S "WY", S "Wyoming"), (S "DC", S "District of Columbia")]

/-- STATE_ALIASES (source lines 544-553). -/
def STATE_ALIASES : List (List Nat × List Nat) :=
  [(S "cali", S "California"), (S "socal", S "California"), (S "norcal", S "California"),
   (S "mass", S "Massachusetts"), (S "mich", S "Michigan"), (S "minn", S "Minnesota"),
   (S "penn", S "Pennsylvania"), (S "tenn", S "Tennessee"), (S "wisc", S "Wisconsin"),
   (S "conn", S "Connecticut"), (S "wash", S "Washington"), (S "ore", S "Oregon"),
   (S "okla", S "Oklahoma"), (S "mont", S "Montana"), (S "miss", S "Mississippi"),
   (S "ala", S "Alabama"), (S "ariz", S "Arizona"), (S "ark", S "Arkansas"),
   (S "colo", S "Colorado"), (S "dela", S "Delaware"), (S "fla", S "Florida"),
   (S "ind", S "Indiana"), (S "neb", S "Nebraska"), (S "nev", S "Nevada")]

/-- TIME_WORD_MAP (source lines 556-564); a Python dict, insertion order is
significant because the fallback branch scans `TIME_WORD_MAP.items()` in
order and takes the first key that is a substring. -/
def TIME_WORD_MAP : List (List Nat × List Nat) :=
  [(S "midnight", S "00:00"), (S "middle of the night", S "03:00"), (S "pre-dawn", S "04:00"),
   (S "predawn", S "04:00"), (S "early morning", S "05:00"), (S "dawn", S "06:00"),
   (S "sunrise", S "06:00"), (S "morning", S "08:00"), (S "mid-morning", S "10:00"),
   (S "noon", S "12:00"), (S "midday", S "12:00"), (S "afternoon", S "14:00"),
   (S "late afternoon", S "16:00"), (S "dusk", S "19:00"), (S "sunset", S "19:00"),
   (S "twilight", S "19:00"), (S "evening", S "20:00"), (S "night", S "21:00"),
   (S "nighttime", S "21:00"), (S "late night", S "23:00"), (S "late at night", S "23:00")]

/-- NULL_STRINGS (source lines 566-569). -/
def NULL_STRINGS : List (List Nat) :=
  [S "na", S "n/a", S "none", S "null", S "unknown", S "unclear", S "unspecified",
   S "parts unknown", S "anonymous", S "", S "not mentioned", S "not specified"]

/-- Keys of US_REGIONS (source lines 1264-1282); `_sanitize_call` only uses
`in US_REGIONS`, i.e. key membership (50 states; DC is absent). -/
def US_REGIONS_KEYS : List (List Nat) :=
  [S "Connecticut", S "Maine", S "Massachusetts", S "New Hampshire", S "Rhode Island",
   S "Vermont", S "New Jersey", S "New York", S "Pennsylvania",
   S "Alabama", S "Arkansas", S "Delaware", S "Florida", S "Georgia", S "Kentucky",
   S "Louisiana", S "Maryland", S "Mississippi", S "North Carolina", S "Oklahoma",
   S "South Carolina", S "Tennessee", S "Texas", S "Virginia", S "West Virginia",
   S "Illinois", S "Indiana", S "Iowa", S "Kansas", S "Michigan", S "Minnesota",
   S "Missouri", S "Nebraska", S "North Dakota", S "Ohio", S "South Dakota", S "Wisconsin",
   S "Alaska", S "Arizona", S "California", S "Colorado", S "Hawaii", S "Idaho",
   S "Montana", S "Nevada", S "New Mexico", S "Oregon", S "Utah", S "Washington",
   S "Wyoming"]

/-- The tone synonym table of `_sanitize_call` (source lines 711-721). -/
def tone_map : List (List Nat × List Nat) :=
  [(S "frightened", S "scared"), (S "terrified", S "scared"), (S "afraid", S "scared"),
   (S "anxious", S "scared"), (S "nervous", S "scared"), (S "uneasy", S "scared"),
   (S "relaxed", S "calm"), (S "composed", S "calm"), (S "neutral", S "calm"),
   (S "sentimental", S "nostalgic"), (S "wistful", S "nostalgic"), (S "reflective", S "nostalgic"),
   (S "funny", S "humorous"), (S "joking", S "humorous"), (S "lighthearted", S "humorous"),
   (S "factual", S "matter-of-fact"), (S "matter of fact", S "matter-of-fact"),
   (S "deadpan", S "matter-of-fact"), (S "dry", S "matter-of-fact"),
   (S "upset", S "emotional"), (S "tearful", S "emotional"), (S "crying", S "emotional"),
   (S "excited", S "emotional"), (S "passionate", S "emotional"), (S "moved", S "emotional")]

/-- First value in an association list whose key equals `k` (Python dict lookup). -/
def alist.lookup (l : List (List Nat × List Nat)) (k : List Nat) : Option (List Nat) :=
  (l.find? (fun p => p.1 == k)).map Prod.snd

/-- Null normalization (source lines 578-591): a string whose stripped,
lowered value is one of NULL_STRINGS is coerced to None; anything else
(including non-strings) is left alone. -/
def nullNorm (v : PyVal) : PyVal :=
  match v with
  | .str s => if NULL_STRINGS.contains (lowStr (strip s)) then .none else .str s
  | other => other

/-- State normalization (source lines 593-607), applied to the (already
null-normalized) state_or_region value.  Non-strings pass through
(`isinstance` guard). -/
def stateNorm (v : PyVal) : PyVal :=
  match v with
  | .str s0 =>
    let s := strip s0
    match alist.lookup STATE_ABBREV_TO_FULL (upStr s) with
    | some full => .str full
    | Option.none =>
      match alist.lookup STATE_ALIASES (lowStr s) with
      | some full => .str full
      | Option.none =>
        if NULL_STRINGS.contains (lowStr s) then .none
        else .str (if s == lowStr s || s == upStr s then title s else s)
  | other => other

/-- Condition of the country-forcing step (source lines 609-611):
`call.get("state_or_region") and call["state_or_region"] in US_REGIONS`.
A non-string value is truthy but never a dict key, and the empty string is
falsy, so the condition holds exactly for a string that is a US_REGIONS key. -/
def isUSState (v : PyVal) : Bool :=
  match v with
  | .str s => US_REGIONS_KEYS.contains s
  | _ => false

/-- call_type rule (source lines 613-625).  `ct = call.get("call_type") or ""`
replaces any falsy value by `""`; a truthy non-string then reaches
`ct.lower()` inside the case-insensitive scan and raises AttributeError. -/
def callTypeSan (v : PyVal) : Except SErr PyVal :=
  match v with
  | .str s =>
    if s == [] then .ok (.str (S "Other"))
    else if VALID_ENTITY_LABELS.contains s then .ok (.str s)
    else
      match VALID_ENTITY_LABELS.find? (fun l => lowStr l == lowStr s) with
      | some l => .ok (.str l)
      | Option.none => .ok (.str (S "Other"))
  | .none => .ok (.str (S "Other"))
  | .int n => if n == 0 then .ok (.str (S "Other")) else .error .attributeError
  | .bool b => if b then .error .attributeError else .ok (.str (S "Other"))

/-- call_type_secondary rule (source lines 627-634): None is skipped, a
valid label is kept, other strings get a case-insensitive promotion with a
None fallback, and any other non-None value reaches `ct2.lower()` in the
scan and raises AttributeError. -/
def ct2San (v : PyVal) : Except SErr PyVal :=
  match v with
  | .none => .ok .none
  | .str s =>
    if VALID_ENTITY_LABELS.contains s then .ok (.str s)
    else
      match VALID_ENTITY_LABELS.find? (fun l => lowStr l == lowStr s) with
      | some l => .ok (.str l)
      | Option.none => .ok .none
  | _ => .error .attributeError

/-- Shape `^\d{4}-\d{2}-\d{2}$`. -/
def isFullDate (s : List Nat) : Bool :=
  match s with
  | [a, b, c, d, h1, e, f, h2, g, k] =>
    isD a && isD b && isD c && isD d && h1 == 45 && isD e && isD f &&
      h2 == 45 && isD g && isD k
  | _ => false

/-- Shape `^\d{4}$`. -/
def isYear4 (s : List Nat) : Bool :=
  match s with
  | [a, b, c, d] => isD a && isD b && isD c && isD d
  | _ => false

/-- Shape `^\d{4}-\d{2}$`. -/
def isYearMonth (s : List Nat) : Bool :=
  match s with
  | [a, b, c, d, h1, e, f] => isD a && isD b && isD c && isD d && h1 == 45 && isD e && isD f
  | _ => false

/-- `re.search(r"(\d{4})s", s)`: leftmost occurrence of four digits followed
by the letter s; returns the four digits. -/
def search4s : List Nat → Option (List Nat)
  | [] => Option.none
  | a :: rest =>
    match rest with
    | b :: c :: d :: e :: _ =>
      if isD a && isD b && isD c && isD d && e == 115 then some [a, b, c, d]
      else search4s rest
    | _ => search4s rest

/-- `re.search(r"(\d{2})s", s)`: leftmost occurrence of two digits followed
by the letter s; returns the two digits. -/
def search2s : List Nat → Option (List Nat)
  | [] => Option.none
  | a :: rest =>
    match rest with
    | b :: c :: _ =>
      if isD a && isD b && c == 115 then some [a, b]
      else search2s rest
    | _ => search2s rest

/-- Numeric value of a two-digit code-point pair (Python `int` on it). -/
def parse2 (a b : Nat) : Nat := (a - 48) * 10 + (b - 48)

/-- Numeric value of a digit string (Python `int` on it). -/
def parseDigits (s : List Nat) : Nat := s.foldl (fun a d => a * 10 + (d - 48)) 0

/-- date_of_event rule (source lines 636-659).  Note the `pass` branch keeps
the original (possibly unstripped) string. -/
def dateSan (v : PyVal) : PyVal :=
  match v with
  | .str s0 =>
    let s := strip s0
    if isFullDate s then .str s0
    else if isYear4 s then .str (s ++ S "-01-01")
    else if isYearMonth s then .str (s ++ S "-01")
    else
      match search4s s with
      | some d4 => .str (d4 ++ S "-01-01")
      | Option.none =>
        match search2s s with
        | some d2 =>
          .str ((if 30 ≤ parse2 (d2.headD 0) (d2.getD 1 0) then S "19" else S "20")
                ++ d2 ++ S "-01-01")
        | Option.none => .none
  | other => other

/-- Python `needle in hay` on strings: substring containment. -/
def hasSub (needle : List Nat) : List Nat → Bool
  | [] => needle == []
  | c :: rest => needle.isPrefixOf (c :: rest) || hasSub needle rest

/-- Shape `^\d{1,2}:\d{2}$` (re.match with both anchors). -/
def isClockShape (s : List Nat) : Bool :=
  match s with
  | [a, c, m1, m2] => isD a && c == 58 && isD m1 && isD m2
  | [a, b, c, m1, m2] => isD a && isD b && c == 58 && isD m1 && isD m2
  | _ => false

/-- `f"{n:02d}"` for n < 1000 (every hour reaching it in the source is at
most 99 + 12): the decimal digits, left-padded with 0 to width two. -/
def padTwo (n : Nat) : List Nat :=
  if n < 10 then [48, 48 + n]
  else if n < 100 then [48 + n / 10, 48 + n % 10]
  else [48 + n / 100, 48 + n / 10 % 10, 48 + n % 10]

/-- The alternation `(am|pm|a\.m\.|p\.m\.)` anchored at the head of `s`,
already lowercased; returns whether the marker is a pm marker (the source
normalizes the match with `.replace(".", "")`). -/
def ampmAt (s : List Nat) : Option Bool :=
  if (S "am").isPrefixOf s then some false
  else if (S "pm").isPrefixOf s then some true
  else if (S "a.m.").isPrefixOf s then some false
  else if (S "p.m.").isPrefixOf s then some true
  else Option.none

/-- After the optional minutes group: `\s*` then the am/pm alternation.
`mins` is the minutes text captured so far (defaulting to "00"). -/
def clockFrom (r : List Nat) (mins : List Nat) : Option (List Nat × Bool) :=
  match ampmAt (r.dropWhile isSp) with
  | some pm => some (mins, pm)
  | Option.none => Option.none

/-- The optional `(?::(\d{2}))?` group followed by `\s*(am|...)`: try the
colon group greedily; if the rest then fails, backtrack to skipping it
(regex semantics), with `mins = m.group(2) or "00"`. -/
def clockTail (rest : List Nat) : Option (List Nat × Bool) :=
  match rest with
  | c :: d1 :: d2 :: r =>
    if c == 58 && isD d1 && isD d2 then
      match clockFrom r [d1, d2] with
      | some x => some x
      | Option.none => clockFrom rest (S "00")
    else clockFrom rest (S "00")
  | _ => clockFrom rest (S "00")

/-- `(\d{1,2})` (greedy, with backtracking) followed by `clockTail`;
returns (hour value, minutes text, pm flag). -/
def clockCore (s : List Nat) : Option (Nat × List Nat × Bool) :=
  match s with
  | d1 :: d2 :: r =>
    if isD d1 then
      if isD d2 then
        match clockTail r with
        | some (m, pm) => some (parse2 d1 d2, m, pm)
        | Option.none =>
          match clockTail (d2 :: r) with
          | some (m, pm) => some (d1 - 48, m, pm)
          | Option.none => Option.none
      else
        match clockTail (d2 :: r) with
        | some (m, pm) => some (d1 - 48, m, pm)
        | Option.none => Option.none
    else Option.none
  | [d1] =>
    if isD d1 then
      match clockTail [] with
      | some (m, pm) => some (d1 - 48, m, pm)
      | Option.none => Option.none
    else Option.none
  | [] => Option.none

/-- `re.match(r"(?:around\s+)?(\d{1,2})(?::(\d{2}))?\s*(am|pm|a\.m\.|p\.m\.)", tv)`:
the optional `around\s+` prefix is tried first and backtracked on failure. -/
def clock12 (tv : List Nat) : Option (Nat × List Nat × Bool) :=
  if (S "around").isPrefixOf tv then
    let r := tv.drop 6
    let r2 := r.dropWhile isSp
    if r2.length < r.length then
      match clockCore r2 with
      | some x => some x
      | Option.none => clockCore tv
    else clockCore tv
  else clockCore tv

/-- Body of the time_of_event rule for `tv = time_val.strip().lower()`
(source lines 664-692). -/
def timeSanCore (tv : List Nat) : PyVal :=
  if isClockShape tv then
    .str (padTwo (parseDigits (tv.takeWhile (fun c => c != 58)))
          ++ 58 :: (tv.dropWhile (fun c => c != 58)).drop 1)
  else
    match alist.lookup TIME_WORD_MAP tv with
    | some hhmm => .str hhmm
    | Option.none =>
      match clock12 tv with
      | some (h, mins, pm) =>
        .str (padTwo (if pm && h != 12 then h + 12 else if !pm && h == 12 then 0 else h)
              ++ 58 :: mins)
      | Option.none =>
        match TIME_WORD_MAP.find? (fun p => hasSub p.1 tv) with
        | some p => .str p.2
        | Option.none => .none

/-- time_of_event rule (source lines 661-692), applied to the already
null-normalized value.  Non-strings pass through (`isinstance` guard). -/
def timeSan (v : PyVal) : PyVal :=
  match v with
  | .str s0 => timeSanCore (lowStr (strip s0))
  | other => other

/-- involves_other_witnesses rule (source lines 694-701). -/
def witSan (v : PyVal) : PyVal :=
  match v with
  | .bool b => .bool b
  | .str s => .bool ([S "true", S "yes", S "1"].contains (lowStr (strip s)))
  | _ => .bool false

/-- caller_emotional_tone rule (source lines 703-724).
`tone = call.get(...) or ""` maps every falsy value to `""`. -/
def toneSan (v : PyVal) : PyVal :=
  match (if v.truthy then v else .str []) with
  | .str s =>
    let t := (lowStr (strip s)).map (fun c => if c == 95 then 45 else c)
    if VALID_TONES.contains t then .str t
    else .str ((alist.lookup tone_map t).getD (S "matter-of-fact"))
  | _ => .str (S "matter-of-fact")

/-- `_sanitize_call` (source lines 572-726).  The Python body is a sequence
of per-field statements over pairwise disjoint fields, except that the
country step reads the already-normalized state; the record below is the
state of the dict after the last statement.  The two statements that can
raise (call_type and call_type_secondary, via `.lower()` on a non-string)
are sequenced in source order, so a call_type error wins. -/
def _sanitize_call (call : CallRec) : Except SErr CallRec :=
  let state1 := stateNorm (nullNorm call.state_or_region)
  match callTypeSan call.call_type, ct2San (nullNorm call.call_type_secondary) with
  | .error e, _ => .error e
  | .ok _, .error e => .error e
  | .ok ctv, .ok ct2v =>
    .ok { call with
      caller_name := nullNorm call.caller_name,
      state_or_region := state1,
      city := nullNorm call.city,
      country := if isUSState state1 then .str (S "USA") else nullNorm call.country,
      call_type := ctv,
      call_type_secondary := ct2v,
      date_of_event := dateSan (nullNorm call.date_of_event),
      time_of_event := timeSan (nullNorm call.time_of_event),
      setting := nullNorm call.setting,
      derek_commentary := nullNorm call.derek_commentary,
      caller_intro_snippet := nullNorm call.caller_intro_snippet,
      involves_other_witnesses := witSan call.involves_other_witnesses,
      caller_emotional_tone := toneSan call.caller_emotional_tone }

/-- Marker 1 of `_chunk_transcript` (source line 1242), as a predicate
"the lookahead body matches at the head of s":
`Now (?:folks|gang|working|from|moving|I also)`. -/
def m1At (s : List Nat) : Bool :=
  [S "Now folks", S "Now gang", S "Now working", S "Now from", S "Now moving",
   S "Now I also"].any (fun w => w.isPrefixOf s)

/-- Marker 2 (source line 1243): `(?:Alright|All right),? (?:gang|folks)`. -/
def m2At (s : List Nat) : Bool :=
  [S "Alright gang", S "Alright folks", S "Alright, gang", S "Alright, folks",
   S "All right gang", S "All right folks", S "All right, gang",
   S "All right, folks"].any (fun w => w.isPrefixOf s)

/-- Marker 3 (source line 1244):
`(?:Thank you|Thanks),? .{1,30}(?:for (?:calling|sharing|ringing))`, where
`.` excludes newline (no DOTALL flag on these patterns). -/
def m3At (s : List Nat) : Bool :=
  [S "Thank you ", S "Thank you, ", S "Thanks ", S "Thanks, "].any (fun lead =>
    lead.isPrefixOf s &&
    (List.range 30).any (fun j =>
      let rest := s.drop lead.length
      ((rest.take (j + 1)).all (fun c => c != 10)) && rest.length > j &&
      ([S "for calling", S "for sharing", S "for ringing"].any
        (fun t => t.isPrefixOf (rest.drop (j + 1))))))

/-- One marker's scan
`for match in reversed(list(re.finditer(m, remaining[:max_chars+5000])))`
with the window test `max_chars*0.5 < match.start() < max_chars` and a
break on the first hit: the lookahead patterns are zero-width, so finditer
yields a match at every position of the sliced prefix where the marker body
matches, and the reversed scan returns the largest such position inside the
window.  `scanDown mk pref maxChars n` examines positions n-1, n-2, ..., 0. -/
def scanDown (mk : List Nat → Bool) (pref : List Nat) (maxChars : Nat) : Nat → Option Nat
  | 0 => Option.none
  | p + 1 =>
    if 2 * p > maxChars && mk (pref.drop p) then some p
    else scanDown mk pref maxChars p

/-- The split position chosen by one iteration of the while-loop of
`_chunk_transcript` (source lines 1247-1253): `best` starts at the budget
boundary and each marker in turn overwrites it when that marker has a
window hit (the inner for-loop breaks, the outer one does not). -/
def bestSplit (remaining : List Nat) (maxChars : Nat) : Nat :=
  let pref := remaining.take (maxChars + 5000)
  [m1At, m2At, m3At].foldl
    (fun best mk =>
      match scanDown mk pref maxChars maxChars with
      | some p => p
      | Option.none => best) maxChars

/-- The while-loop of `_chunk_transcript` (source lines 1246-1257).  `fuel`
bounds the number of iterations; when `1 ≤ maxChars` every iteration
strictly shrinks `remaining` (theorem on claim C10), so `remaining.length`
is always enough fuel and the fuel-exhaustion branch is unreachable from
`_chunk_transcript`. -/
def chunkGo (fuel : Nat) (remaining : List Nat) (maxChars : Nat) : List (List Nat) :=
  match fuel with
  | 0 => if remaining.isEmpty then [] else [remaining]
  | fuel' + 1 =>
    if remaining.length ≤ maxChars then
      if remaining.isEmpty then [] else [remaining]
    else
      let best := bestSplit remaining maxChars
      remaining.take best :: chunkGo fuel' (remaining.drop best) maxChars

/-- `_chunk_transcript` (source lines 1238-1258); the source default budget
is `max_chars = 75000`. -/
def _chunk_transcript (text : List Nat) (maxChars : Nat := 75000) : List (List Nat) :=
  if text.length ≤ maxChars then [text]
  else chunkGo text.length text maxChars


/-- `(call.get(k) or "").strip()` (source lines 1018, 1028, 1033, 1038): a
falsy value becomes the empty string, a truthy non-string raises
AttributeError at `.strip()`. -/
def getStrField (v : PyVal) : Except SErr (List Nat) :=
  match v with
  | .str s => .ok (strip s)
  | .none => .ok []
  | .int n => if n == 0 then .ok [] else .error .attributeError
  | .bool b => if b then .error .attributeError else .ok []

/-- Worker for `str.split()`: `cur` is the word being accumulated. -/
def swGo (cur : List Nat) : List Nat → List (List Nat)
  | [] => if cur == [] then [] else [cur]
  | c :: rest =>
    if isSp c then (if cur == [] then [] else [cur]) ++ swGo [] rest
    else swGo (cur ++ [c]) rest

/-- `str.split()` with no argument: split on whitespace runs, no empty parts. -/
def splitWs (s : List Nat) : List (List Nat) := swGo [] s

/-- `" ".join(ws)`. -/
def joinSpace (ws : List (List Nat)) : List Nat :=
  match ws with
  | [] => []
  | [w] => w
  | w :: rest => w ++ 32 :: joinSpace rest

/-- Python `\w`: word character (letters, digits, underscore; ASCII range). -/
def isWordC (n : Nat) : Bool := isAl n || isD n || n == 95

/-- Worker for `re.findall(r"\b[a-z]{4,}\b", s)`: `run` is the current
lowercase-letter run, `runOk` whether it started at a word boundary (for an
empty `run`, whether a run starting at the next character would). -/
def fwGo (run : List Nat) (runOk : Bool) : List Nat → List (List Nat)
  | [] => if runOk && 4 ≤ run.length then [run] else []
  | c :: rest =>
    if isLoC c then fwGo (run ++ [c]) runOk rest
    else
      (if runOk && 4 ≤ run.length && !isWordC c then [run] else []) ++
        fwGo [] (!isWordC c) rest

/-- `re.findall(r"\b[a-z]{4,}\b", s)` on an already-lowercased string:
runs of lowercase letters of length at least 4 delimited by word
boundaries (a neighbouring letter, digit or underscore disqualifies). -/
def findWords (s : List Nat) : List (List Nat) := fwGo [] true s

/-- `",".join(ws)`. -/
def joinComma (ws : List (List Nat)) : List Nat :=
  match ws with
  | [] => []
  | [w] => w
  | w :: rest => w ++ 44 :: joinComma rest

/-- Check 1 of `_verify_calls` (source lines 1017-1025): the snippet as a
substring, else its first five words (at least three required). -/
def snippetEvidence (snippet t_lower : List Nat) : List (List Nat) :=
  if snippet != [] && hasSub (lowStr snippet) t_lower then [S "snippet_match"]
  else if snippet != [] then
    (if 3 ≤ ((splitWs (lowStr snippet)).take 5).length
        && hasSub (joinSpace ((splitWs (lowStr snippet)).take 5)) t_lower
     then [S "snippet_partial"] else [])
  else []

/-- Check 2 (source lines 1027-1030). -/
def nameEvidence (name t_lower : List Nat) : List (List Nat) :=
  if name != [] && hasSub (lowStr name) t_lower then [S "name_found"] else []

/-- Check 3 (source lines 1032-1035). -/
def stateEvidence (state t_lower : List Nat) : List (List Nat) :=
  if state != [] && hasSub (lowStr state) t_lower then [S "state_found"] else []

/-- Check 4 (source lines 1037-1043): at least three (with multiplicity)
four-or-more-letter words of the description occurring in the transcript. -/
def descEvidence (desc t_lower : List Nat) : List (List Nat) :=
  if desc != [] then
    (if 3 ≤ ((findWords (lowStr desc)).filter (fun w => hasSub w t_lower)).length
     then [S "desc_words_match"] else [])
  else []

/-- The body of the per-call loop of `_verify_calls` (source lines
1014-1047): computes the evidence list and sets `verified` and
`verification_evidence`.  Any truthy non-string among the four read fields
raises AttributeError at its `.strip()`. -/
def _verify_call (transcript : List Nat) (call : CallRec) : Except SErr CallRec :=
  let t_lower := lowStr transcript
  match getStrField call.caller_intro_snippet, getStrField call.caller_name,
        getStrField call.state_or_region, getStrField call.description with
  | .ok snippet, .ok name, .ok state, .ok desc =>
    let evidence := snippetEvidence snippet t_lower ++ nameEvidence name t_lower
      ++ stateEvidence state t_lower ++ descEvidence desc t_lower
    .ok { call with
      verified := .bool (0 < evidence.length),
      verification_evidence :=
        .str (if evidence == [] then S "none" else joinComma evidence) }
  | .error e, _, _, _ => .error e
  | _, .error e, _, _ => .error e
  | _, _, .error e, _ => .error e
  | _, _, _, .error e => .error e

/-- Episode metadata read by the per-chunk loop of `parse_transcripts`
(source lines 1117-1133): `ep["name"]`, `ep.get("season")`,
`ep.get("episode")`, `ep["release_date"]`. -/
structure Episode where
  name : List Nat
  season : PyVal := .none
  episode : PyVal := .none
  release_date : PyVal := .none

/-- The metadata assignment of source lines 1129-1133. -/
def setMeta (ep : Episode) (call : CallRec) : CallRec :=
  { call with
    season := ep.season,
    episode := ep.episode,
    episode_title := .str ep.name,
    release_date := ep.release_date }

/-- The `for call in calls: ... _sanitize_call(call)` loop (source lines
1129-1134): sanitization in order; the first raised exception aborts the
loop and the whole chunk. -/
def sanitizeList : List CallRec → Except SErr (List CallRec)
  | [] => .ok []
  | c :: rest =>
    match _sanitize_call c with
    | .error e => .error e
    | .ok c' =>
      match sanitizeList rest with
      | .error e => .error e
      | .ok r => .ok (c' :: r)

/-- `log.error(f"JSON error for {ep['name'][:50]}: {e}")` (source line 1143). -/
def jsonErrorLog (name e : List Nat) : List Nat :=
  S "JSON error for " ++ name.take 50 ++ S ": " ++ e

/-- `log.error(f"API error for {ep['name'][:50]}: {e}")` (source line 1145);
the model keeps the session-name part of the message. -/
def apiErrorLog (name : List Nat) : List Nat :=
  S "API error for " ++ name.take 50

/-- One iteration of the per-chunk try/except (source lines 1115-1147).
`decode` stands for the backend call followed by code-fence stripping and
`json.loads`: it returns the decoded record list or the decode-error
message.  A `json.JSONDecodeError` produces the JSON-error log line; any
other exception (e.g. AttributeError out of `_sanitize_call`) produces the
API-error log line.  Either way the chunk yields no records. -/
def processChunk (decode : List Nat → Except (List Nat) (List CallRec))
    (ep : Episode) (chunk : List Nat) : Except (List Nat) (List CallRec) :=
  match decode chunk with
  | .error e => .error (jsonErrorLog ep.name e)
  | .ok calls =>
    match sanitizeList (calls.map (setMeta ep)) with
    | .error _ => .error (apiErrorLog ep.name)
    | .ok s => .ok s

/-- The chunk loop of `parse_transcripts` for one session (source lines
1115-1147): `episode_calls` accumulates the records of the successful
chunks, failed chunks only log; the loop always runs to the last chunk. -/
def processChunks (decode : List Nat → Except (List Nat) (List CallRec))
    (ep : Episode) (chunks : List (List Nat)) : List CallRec × List (List Nat) :=
  chunks.foldl
    (fun acc chunk =>
      match processChunk decode ep chunk with
      | .ok recs => (acc.1 ++ recs, acc.2)
      | .error lg => (acc.1, acc.2 ++ [lg])) ([], [])

/-- The records one chunk contributes to `episode_calls`. -/
def chunkRecs (decode : List Nat → Except (List Nat) (List CallRec))
    (ep : Episode) (chunk : List Nat) : List CallRec :=
  match processChunk decode ep chunk with
  | .ok recs => recs
  | .error _ => []

/-- Modelled from the spec (testable property behind claim C4): the time
field is null or zero-padded HH:MM with hour in [0,23] and minute in
[0,59]. -/
def specTimeOK (v : PyVal) : Bool :=
  match v with
  | .none => true
  | .str s =>
    (match s with
     | [h1, h2, c, m1, m2] =>
       isD h1 && isD h2 && c == 58 && isD m1 && isD m2 &&
         parse2 h1 h2 ≤ 23 && parse2 m1 m2 ≤ 59
     | _ => false)
  | _ => false

/-- A two-digit-hour clock string HH:MM (no range checks). -/
def clock5 (s : List Nat) : Bool :=
  match s with
  | [h1, h2, c, m1, m2] => isD h1 && isD h2 && c == 58 && isD m1 && isD m2
  | _ => false

/-- A three-digit-hour clock string HHH:MM (produced only by the 12-hour
branch when pm is added to an hour of 88 or more). -/
def clock6 (s : List Nat) : Bool :=
  match s with
  | [h1, h2, h3, c, m1, m2] => isD h1 && isD h2 && isD h3 && c == 58 && isD m1 && isD m2
  | _ => false

/-- Shape actually guaranteed by the time rule for string inputs: a two- or
three-digit hour, a colon, and a two-digit minute (no range checks). -/
def timeShapeOK (s : List Nat) : Bool := clock5 s || clock6 s

/-- A time value whose hour part has three digits; the only sanitizer
output that the time rule does not leave fixed. -/
def threeDigitHourTime (v : PyVal) : Bool :=
  match v with
  | .str s => clock6 s
  | _ => false

/-- Marker `mk` has a zero-width match at offset `p` of the scanned slice
`remaining[:maxChars+5000]`, inside the tolerance window
`maxChars*0.5 < p < maxChars` of the source. -/
def WMarker (mk : List Nat → Bool) (remaining : List Nat) (maxChars p : Nat) : Prop :=
  2 * p > maxChars ∧ p < maxChars ∧ mk ((remaining.take (maxChars + 5000)).drop p) = true

/-- `p` is the window match of marker `mk` closest to the budget boundary. -/
def GreatestWM (mk : List Nat → Bool) (remaining : List Nat) (maxChars p : Nat) : Prop :=
  WMarker mk remaining maxChars p ∧
    ∀ q, q < maxChars → WMarker mk remaining maxChars q → q ≤ p

/-- Marker `mk` has no window match at all. -/
def NoWM (mk : List Nat → Bool) (remaining : List Nat) (maxChars : Nat) : Prop :=
  ∀ q, q < maxChars → ¬ WMarker mk remaining maxChars q

/-- Modelled from the spec (4.4, signal 1): the snippet appears verbatim as
a case-insensitive substring of the transcript, or, failing that, its first
five whitespace-delimited words (at least three required) do. -/
def specSnippetSignal (snippet t_lower : List Nat) : Bool :=
  snippet != [] &&
    (hasSub (lowStr snippet) t_lower ||
      (3 ≤ ((splitWs (lowStr snippet)).take 5).length &&
        hasSub (joinSpace ((splitWs (lowStr snippet)).take 5)) t_lower))

/-- Modelled from the spec (4.4, signal 2): the caller name appears as a
case-insensitive substring of the transcript. -/
def specNameSignal (name t_lower : List Nat) : Bool :=
  name != [] && hasSub (lowStr name) t_lower

/-- Modelled from the spec (4.4, signal 3): the resolved region appears as
a case-insensitive substring of the transcript. -/
def specStateSignal (state t_lower : List Nat) : Bool :=
  state != [] && hasSub (lowStr state) t_lower

/-- Modelled from the spec (4.4, signal 4, as the spec words it): at least
three DISTINCT four-or-more-letter words of the summary appear in the
transcript. -/
def specDescSignalDistinct (desc t_lower : List Nat) : Bool :=
  desc != [] &&
    3 ≤ (((findWords (lowStr desc)).dedup).filter (fun w => hasSub w t_lower)).length

/-- The desc signal as the code computes it: occurrences counted with
multiplicity (`re.findall` keeps duplicates). -/
def descSignalMult (desc t_lower : List Nat) : Bool :=
  desc != [] &&
    3 ≤ ((findWords (lowStr desc)).filter (fun w => hasSub w t_lower)).length

lemma nameEvidence_eq (name L : List Nat) :
    nameEvidence name L = if specNameSignal name L = true then [S "name_found"] else [] :=
  rfl

lemma stateEvidence_eq (state L : List Nat) :
    stateEvidence state L = if specStateSignal state L = true then [S "state_found"] else [] :=
  rfl

lemma descEvidence_eq (desc L : List Nat) :
    descEvidence desc L =
      if descSignalMult desc L = true then [S "desc_words_match"] else [] := by
  unfold descEvidence descSignalMult
  cases hd : (desc != []) <;>
    by_cases hc : 3 ≤ ((findWords (lowStr desc)).filter (fun w => hasSub w L)).length <;>
      simp [hd, hc]

lemma snippetEvidence_eq (snippet L : List Nat) :
    snippetEvidence snippet L =
      if specSnippetSignal snippet L = true then
        (if hasSub (lowStr snippet) L = true then [S "snippet_match"]
         else [S "snippet_partial"])
      else [] := by
  unfold snippetEvidence specSnippetSignal
  cases hs : (snippet != []) <;> cases hsub : hasSub (lowStr snippet) L <;>
    cases hp : (3 ≤ ((splitWs (lowStr snippet)).take 5).length
        && hasSub (joinSpace ((splitWs (lowStr snippet)).take 5)) L) <;>
      simp [hs, hsub, hp]

/-- C3 (code bug): `_sanitize_call` does raise on malformed input.  A
truthy non-string call_type (or a non-null non-string call_type_secondary)
reaches `.lower()` in the case-insensitive scan and raises AttributeError,
contradicting the documented contract that every malformation degrades to a
defined default without an exception. -/
theorem sanitize_raises_on_nonstring_call_type :
    _sanitize_call { call_type := .int 1 } = .error .attributeError ∧
    _sanitize_call { call_type_secondary := .int 1 } = .error .attributeError :=
  ⟨rfl, rfl⟩

/-- C4 counterexample: the record with time_of_event "99:99" sanitizes to
completion and keeps "99:99", which is not null and has hour 99 and minute
99 outside the claimed ranges, so the claim as stated is false. -/
theorem sanitize_time_range_counterexample :
    _sanitize_call { time_of_event := .str (S "99:99") } =
      .ok { time_of_event := .str (S "99:99"), call_type := .str (S "Other"),
            involves_other_witnesses := .bool false,
            caller_emotional_tone := .str (S "matter-of-fact") } ∧
    specTimeOK (.str (S "99:99")) = false :=
  ⟨rfl, by decide⟩

/-- C5 counterexample: sanitizing time_of_event "around 3 in the afternoon"
yields "12:00", not the claimed "15:00" — the 12-hour branch needs a
literal am/pm marker, so the value falls to the substring scan of
TIME_WORD_MAP, where "noon" (mapped to 12:00) is found inside "afternoon"
before "afternoon" itself is tried. -/
theorem sanitize_afternoon_counterexample :
    _sanitize_call { time_of_event := .str (S "around 3 in the afternoon") } =
      .ok { time_of_event := .str (S "12:00"), call_type := .str (S "Other"),
            involves_other_witnesses := .bool false,
            caller_emotional_tone := .str (S "matter-of-fact") } ∧
    S "12:00" ≠ S "15:00" :=
  ⟨rfl, by decide⟩

/-- C5 amended: sanitizing a record whose time_of_event is the string
"around 3 in the afternoon" yields the time value "12:00". -/
theorem sanitize_afternoon_yields_1200 :
    (_sanitize_call { time_of_event := .str (S "around 3 in the afternoon") }).map
      (fun r => r.time_of_event) = .ok (.str (S "12:00")) :=
  rfl

/-- C6 counterexample: the sanitizer is not idempotent.  For time_of_event
"95 pm" the first pass produces the three-digit-hour string "107:00"
(pm adds 12 with no range check), which the second pass no longer
recognizes and nulls. -/
theorem sanitize_not_idempotent :
    _sanitize_call { time_of_event := .str (S "95 pm") } =
      .ok { time_of_event := .str (S "107:00"), call_type := .str (S "Other"),
            involves_other_witnesses := .bool false,
            caller_emotional_tone := .str (S "matter-of-fact") } ∧
    _sanitize_call
        { time_of_event := .str (S "107:00"), call_type := .str (S "Other"),
          involves_other_witnesses := .bool false,
          caller_emotional_tone := .str (S "matter-of-fact") } =
      .ok { time_of_event := .none, call_type := .str (S "Other"),
            involves_other_witnesses := .bool false,
            caller_emotional_tone := .str (S "matter-of-fact") } ∧
    (PyVal.none : PyVal) ≠ .str (S "107:00") :=
  ⟨rfl, rfl, by decide⟩

lemma chunkGo_flatten (fuel : Nat) :
    ∀ (remaining : List Nat) (maxChars : Nat),
      (chunkGo fuel remaining maxChars).flatten = remaining := by
  induction fuel with
  | zero =>
    intro remaining maxChars
    simp only [chunkGo]
    by_cases h : remaining.isEmpty
    · simp [h, List.isEmpty_iff.mp h]
    · simp [h]
  | succ fuel ih =>
    intro remaining maxChars
    simp only [chunkGo]
    by_cases hlen : remaining.length ≤ maxChars
    · simp only [hlen, if_true]
      by_cases h : remaining.isEmpty
      · simp [h, List.isEmpty_iff.mp h]
      · simp [h]
    · simp only [hlen, if_false, List.flatten_cons, ih]
      exact List.take_append_drop _ _

/-- C2: chunking is lossless — concatenating the chunks returned by
`_chunk_transcript` reproduces the input text exactly, for every text
(shorter than, equal to, or longer than the budget) and every positive
budget, in particular the configured 75000. -/
theorem chunk_lossless (text : List Nat) (maxChars : Nat) (_h : 1 ≤ maxChars) :
    (_chunk_transcript text maxChars).flatten = text := by
  unfold _chunk_transcript
  by_cases hlen : text.length ≤ maxChars
  · simp [hlen]
  · simp [hlen, chunkGo_flatten]

/-- Witness for `chunk_lossless` at a concrete input longer than the budget. -/
theorem chunk_lossless_witness :
    1 ≤ 2 ∧ (_chunk_transcript (S "abcde") 2).flatten = S "abcde" :=
  ⟨by decide, chunk_lossless (S "abcde") 2 (by decide)⟩

lemma scanDown_some_bounds {mk : List Nat → Bool} {pref : List Nat} {maxChars : Nat} :
    ∀ {n p : Nat}, scanDown mk pref maxChars n = some p →
      p < n ∧ 2 * p > maxChars ∧ mk (pref.drop p) = true := by
  intro n
  induction n with
  | zero => intro p h; simp [scanDown] at h
  | succ n ih =>
    intro p h
    simp only [scanDown] at h
    by_cases hc : (2 * n > maxChars && mk (pref.drop n)) = true
    · rw [if_pos hc] at h
      obtain ⟨h1, h2⟩ := Bool.and_eq_true_iff.mp hc
      cases h
      exact ⟨Nat.lt_succ_self _, by simpa using h1, h2⟩
    · rw [if_neg hc] at h
      obtain ⟨hlt, h2, h3⟩ := ih h
      exact ⟨Nat.lt_succ_of_lt hlt, h2, h3⟩

lemma scanDown_eq_some {mk : List Nat → Bool} {pref : List Nat} {maxChars : Nat} :
    ∀ {n p : Nat}, p < n → 2 * p > maxChars → mk (pref.drop p) = true →
      (∀ q, p < q → q < n → ¬(2 * q > maxChars ∧ mk (pref.drop q) = true)) →
      scanDown mk pref maxChars n = some p := by
  intro n
  induction n with
  | zero => intro p h; omega
  | succ n ih =>
    intro p hp h2 h3 hmax
    simp only [scanDown]
    by_cases hpn : p = n
    · subst hpn
      have : (2 * p > maxChars && mk (pref.drop p)) = true := by
        simp [h2, h3]
      simp [this]
    · have hlt : p < n := by omega
      have hcond : ¬(2 * n > maxChars ∧ mk (pref.drop n) = true) :=
        hmax n hlt (Nat.lt_succ_self _)
      have : (2 * n > maxChars && mk (pref.drop n)) = false := by
        by_contra hh
        have := Bool.and_eq_true_iff.mp (Bool.of_not_eq_false hh)
        exact hcond ⟨by simpa using this.1, this.2⟩
      rw [this]
      simp only [Bool.false_eq_true, if_false]
      exact ih hlt h2 h3 (fun q hq1 hq2 => hmax q hq1 (Nat.lt_succ_of_lt hq2))

lemma scanDown_eq_none {mk : List Nat → Bool} {pref : List Nat} {maxChars : Nat} :
    ∀ {n : Nat}, (∀ q, q < n → ¬(2 * q > maxChars ∧ mk (pref.drop q) = true)) →
      scanDown mk pref maxChars n = Option.none := by
  intro n
  induction n with
  | zero => intro _; rfl
  | succ n ih =>
    intro h
    simp only [scanDown]
    have hcond : ¬(2 * n > maxChars ∧ mk (pref.drop n) = true) := h n (Nat.lt_succ_self _)
    have : (2 * n > maxChars && mk (pref.drop n)) = false := by
      by_contra hh
      have := Bool.and_eq_true_iff.mp (Bool.of_not_eq_false hh)
      exact hcond ⟨by simpa using this.1, this.2⟩
    rw [this]
    simp only [Bool.false_eq_true, if_false]
    exact ih (fun q hq => h q (Nat.lt_succ_of_lt hq))

lemma bestSplit_eq (remaining : List Nat) (maxChars : Nat) :
    bestSplit remaining maxChars =
      (match scanDown m3At (remaining.take (maxChars + 5000)) maxChars maxChars with
       | some p => p
       | Option.none =>
         match scanDown m2At (remaining.take (maxChars + 5000)) maxChars maxChars with
         | some p => p
         | Option.none =>
           match scanDown m1At (remaining.take (maxChars + 5000)) maxChars maxChars with
           | some p => p
           | Option.none => maxChars) :=
  rfl

lemma bestSplit_bounds (remaining : List Nat) {maxChars : Nat} (h : 1 ≤ maxChars) :
    1 ≤ bestSplit remaining maxChars ∧ bestSplit remaining maxChars ≤ maxChars := by
  rw [bestSplit_eq]
  rcases h3 : scanDown m3At (remaining.take (maxChars + 5000)) maxChars maxChars with _ | p3
  · rcases h2 : scanDown m2At (remaining.take (maxChars + 5000)) maxChars maxChars with _ | p2
    · rcases h1 : scanDown m1At (remaining.take (maxChars + 5000)) maxChars maxChars with _ | p1
      · simp only []
        exact ⟨h, Nat.le_refl _⟩
      · simp only []
        obtain ⟨hlt, hgt, _⟩ := scanDown_some_bounds h1
        constructor <;> omega
    · simp only []
      obtain ⟨hlt, hgt, _⟩ := scanDown_some_bounds h2
      constructor <;> omega
  · simp only []
    obtain ⟨hlt, hgt, _⟩ := scanDown_some_bounds h3
    constructor <;> omega

lemma chunkGo_small {text : List Nat} {maxChars : Nat} (h : text.length ≤ maxChars) :
    ∀ fuel, chunkGo fuel text maxChars = if text.isEmpty then [] else [text] := by
  intro fuel
  cases fuel with
  | zero => rfl
  | succ f => simp [chunkGo, h]

lemma chunkGo_fuel_eq {maxChars : Nat} (hm : 1 ≤ maxChars) :
    ∀ len (text : List Nat), text.length ≤ len → ∀ fuel, text.length ≤ fuel →
      chunkGo fuel text maxChars = chunkGo text.length text maxChars := by
  intro len
  induction len with
  | zero =>
    intro text hlen fuel hfuel
    rw [chunkGo_small (by omega), chunkGo_small (by omega)]
  | succ len ih =>
    intro text hlen fuel hfuel
    by_cases hsmall : text.length ≤ maxChars
    · rw [chunkGo_small hsmall, chunkGo_small hsmall]
    · obtain ⟨f', hf⟩ : ∃ k, fuel = k + 1 := ⟨fuel - 1, by omega⟩
      obtain ⟨t', ht⟩ : ∃ k, text.length = k + 1 := ⟨text.length - 1, by omega⟩
      obtain ⟨hb1, hb2⟩ := bestSplit_bounds text hm
      have hd : (text.drop (bestSplit text maxChars)).length
          = text.length - bestSplit text maxChars := List.length_drop _ _
      subst hf
      rw [ht]
      simp only [chunkGo, if_neg hsmall]
      have hdlen : (text.drop (bestSplit text maxChars)).length ≤ len := by omega
      rw [ih _ hdlen f' (by omega), ih _ hdlen t' (by omega)]

/-- C10: for every budget of at least one character, `_chunk_transcript`
terminates — every accepted split point is strictly positive and at most
the budget, so each loop iteration strictly shrinks the remainder, and any
fuel of at least the text length (in particular the `text.length` the
definition passes) computes the same, completed result. -/
theorem chunk_terminates (text : List Nat) (maxChars : Nat) (h : 1 ≤ maxChars) :
    (maxChars < text.length →
      1 ≤ bestSplit text maxChars ∧ bestSplit text maxChars ≤ maxChars ∧
        (text.drop (bestSplit text maxChars)).length < text.length) ∧
    ∀ fuel, text.length ≤ fuel →
      chunkGo fuel text maxChars = chunkGo text.length text maxChars := by
  constructor
  · intro hbig
    obtain ⟨h1, h2⟩ := bestSplit_bounds text h
    refine ⟨h1, h2, ?_⟩
    rw [List.length_drop]
    omega
  · intro fuel hf
    exact chunkGo_fuel_eq h text.length text (Nat.le_refl _) fuel hf

/-- Witness for `chunk_terminates` at a concrete over-budget input. -/
theorem chunk_terminates_witness :
    1 ≤ 1 ∧
      (1 ≤ bestSplit (S "abc") 1 ∧ bestSplit (S "abc") 1 ≤ 1 ∧
        ((S "abc").drop (bestSplit (S "abc") 1)).length < (S "abc").length) ∧
      chunkGo 7 (S "abc") 1 = chunkGo (S "abc").length (S "abc") 1 :=
  ⟨by decide, (chunk_terminates (S "abc") 1 (by decide)).1 (by decide),
   (chunk_terminates (S "abc") 1 (by decide)).2 7 (by decide)⟩

/-- A 70-character text for the chunker claims: marker 1 ("Now folks") has
a zero-width match at offset 55 and marker 3 ("Thanks, ... for calling")
one at offset 32; with budget 60 both lie in the window (30, 60). -/
def exC7 : List Nat :=
  S "xxxxxxxxxxxxxxxxxxxxxxxxxxxxxxxxThanks, Bob for callingNow folkszzzzzz"

/-- C7 counterexample: with budget 60 on `exC7`, offset 55 is a marker
match in the window and is closer to the budget boundary than the chosen
split 32 — the loop does not pick the window match nearest the boundary,
because each later marker pattern overwrites the choice of earlier ones. -/
theorem chunk_marker_counterexample :
    WMarker m1At exC7 60 55 ∧ bestSplit exC7 60 = 32 ∧
    _chunk_transcript exC7 60 = [exC7.take 32, exC7.drop 32] ∧ (32 : Nat) < 55 := by
  refine ⟨⟨by decide, by decide, by decide⟩, by decide, ?_, by decide⟩
  rfl

/-- C7 amended: when the text exceeds the budget, the split point is
determined per marker pattern: each of the three patterns, in source
order, overwrites the current choice with its own window match closest to
the budget boundary whenever it has one, so the final choice belongs to
the LAST pattern with any window match (the Thanks-for-calling pattern
first, then the Alright pattern, then the Now pattern); only when no
pattern has a window match does the split fall at the budget boundary. -/
theorem bestSplit_marker_order (remaining : List Nat) (maxChars p : Nat) :
    (GreatestWM m3At remaining maxChars p → bestSplit remaining maxChars = p) ∧
    (NoWM m3At remaining maxChars → GreatestWM m2At remaining maxChars p →
      bestSplit remaining maxChars = p) ∧
    (NoWM m3At remaining maxChars → NoWM m2At remaining maxChars →
      GreatestWM m1At remaining maxChars p → bestSplit remaining maxChars = p) ∧
    (NoWM m1At remaining maxChars → NoWM m2At remaining maxChars →
      NoWM m3At remaining maxChars → bestSplit remaining maxChars = maxChars) := by
  have hnone : ∀ mk, NoWM mk remaining maxChars →
      scanDown mk (remaining.take (maxChars + 5000)) maxChars maxChars = Option.none := by
    intro mk hno
    exact scanDown_eq_none (fun q hq hc => hno q hq ⟨hc.1, hq, hc.2⟩)
  have hsome : ∀ mk, GreatestWM mk remaining maxChars p →
      scanDown mk (remaining.take (maxChars + 5000)) maxChars maxChars = some p := by
    intro mk hg
    obtain ⟨⟨hw1, hw2, hw3⟩, hmax⟩ := hg
    exact scanDown_eq_some hw2 hw1 hw3
      (fun q hq1 hq2 hc => absurd (hmax q hq2 ⟨hc.1, hq2, hc.2⟩) (by omega))
  refine ⟨?_, ?_, ?_, ?_⟩
  · intro hg
    rw [bestSplit_eq, hsome _ hg]
  · intro h3 hg
    rw [bestSplit_eq, hnone _ h3, hsome _ hg]
  · intro h3 h2 hg
    rw [bestSplit_eq, hnone _ h3, hnone _ h2, hsome _ hg]
  · intro h1 h2 h3
    rw [bestSplit_eq, hnone _ h3, hnone _ h2, hnone _ h1]

/-- Witness for `bestSplit_marker_order` on `exC7` with budget 60: marker 3
has greatest window match 32, so the split is 32. -/
theorem bestSplit_marker_order_witness :
    GreatestWM m3At exC7 60 32 ∧ bestSplit exC7 60 = 32 := by
  have hg : GreatestWM m3At exC7 60 32 := by
    constructor
    · exact ⟨by decide, by decide, by decide⟩
    · intro q hq hw
      have h3 : m3At ((exC7.take (60 + 5000)).drop q) = true := hw.2.2
      have h2q : 2 * q > 60 := hw.1
      interval_cases q <;> first | omega | (exfalso; revert h3; decide)
  exact ⟨hg, (bestSplit_marker_order exC7 60 32).1 hg⟩

/-- The log line one chunk contributes (none when the chunk succeeds). -/
def chunkLog (decode : List Nat → Except (List Nat) (List CallRec))
    (ep : Episode) (chunk : List Nat) : Option (List Nat) :=
  match processChunk decode ep chunk with
  | .ok _ => Option.none
  | .error lg => some lg

lemma processChunks_foldl (decode : List Nat → Except (List Nat) (List CallRec))
    (ep : Episode) :
    ∀ (chunks : List (List Nat)) (acc : List CallRec × List (List Nat)),
      chunks.foldl
        (fun acc chunk =>
          match processChunk decode ep chunk with
          | .ok recs => (acc.1 ++ recs, acc.2)
          | .error lg => (acc.1, acc.2 ++ [lg])) acc
      = (acc.1 ++ (chunks.map (chunkRecs decode ep)).flatten,
         acc.2 ++ chunks.filterMap (chunkLog decode ep)) := by
  intro chunks
  induction chunks with
  | nil => intro acc; simp
  | cons c rest ih =>
    intro acc
    simp only [List.foldl_cons, List.map_cons, List.flatten_cons, List.filterMap_cons]
    rcases hc : processChunk decode ep c with lg | recs
    · simp only [chunkRecs, chunkLog, hc, ih]
      simp
    · simp only [chunkRecs, chunkLog, hc, ih]
      simp

lemma processChunks_eq (decode : List Nat → Except (List Nat) (List CallRec))
    (ep : Episode) (chunks : List (List Nat)) :
    processChunks decode ep chunks
      = ((chunks.map (chunkRecs decode ep)).flatten,
         chunks.filterMap (chunkLog decode ep)) := by
  unfold processChunks
  rw [processChunks_foldl]
  simp

/-- C9: when the decode of one chunk's backend response fails, that chunk
contributes no records, the failure is logged with the session name, and
the loop still processes every other chunk of the session — the records
are exactly the concatenation of every chunk's own contribution. -/
theorem chunk_decode_error_skipped
    (decode : List Nat → Except (List Nat) (List CallRec)) (ep : Episode)
    (chunks : List (List Nat)) (i : Nat) (hi : i < chunks.length) (e : List Nat)
    (herr : decode (chunks.get ⟨i, hi⟩) = .error e) :
    (processChunks decode ep chunks).1 = (chunks.map (chunkRecs decode ep)).flatten ∧
    chunkRecs decode ep (chunks.get ⟨i, hi⟩) = [] ∧
    jsonErrorLog ep.name e ∈ (processChunks decode ep chunks).2 := by
  have herr' : decode chunks[i] = .error e := by simpa using herr
  rw [processChunks_eq]
  refine ⟨rfl, ?_, ?_⟩
  · simp [chunkRecs, processChunk, herr']
  · simp only []
    apply List.mem_filterMap.mpr
    refine ⟨chunks.get ⟨i, hi⟩, List.get_mem chunks i hi, ?_⟩
    simp [chunkLog, processChunk, herr']

/-- Witness for `chunk_decode_error_skipped`: two chunks, the first fails
to decode, the second yields no records either way. -/
theorem chunk_decode_error_skipped_witness :
    (fun c => if c = S "bad" then (.error (S "oops") : Except (List Nat) (List CallRec))
              else .ok []) (([S "bad", S "good"] : List (List Nat)).get ⟨0, by decide⟩)
        = .error (S "oops") ∧
    ((processChunks
        (fun c => if c = S "bad" then .error (S "oops") else .ok [])
        ⟨S "ep1", .none, .none, .none⟩ [S "bad", S "good"]).1
      = (([S "bad", S "good"] : List (List Nat)).map
          (chunkRecs (fun c => if c = S "bad" then .error (S "oops") else .ok [])
            ⟨S "ep1", .none, .none, .none⟩)).flatten ∧
     chunkRecs (fun c => if c = S "bad" then .error (S "oops") else .ok [])
        ⟨S "ep1", .none, .none, .none⟩ (([S "bad", S "good"] : List (List Nat)).get ⟨0, by decide⟩) = [] ∧
     jsonErrorLog (S "ep1") (S "oops") ∈
       (processChunks (fun c => if c = S "bad" then .error (S "oops") else .ok [])
         ⟨S "ep1", .none, .none, .none⟩ [S "bad", S "good"]).2) := by
  constructor
  · rfl
  · exact chunk_decode_error_skipped _ _ _ 0 (by decide) _ (by rfl)

lemma sanitize_ok_inv {call r : CallRec} (h : _sanitize_call call = .ok r) :
    ∃ ctv ct2v,
      callTypeSan call.call_type = .ok ctv ∧
      ct2San (nullNorm call.call_type_secondary) = .ok ct2v ∧
      r = { call with
        caller_name := nullNorm call.caller_name,
        state_or_region := stateNorm (nullNorm call.state_or_region),
        city := nullNorm call.city,
        country :=
          if isUSState (stateNorm (nullNorm call.state_or_region)) then .str (S "USA")
          else nullNorm call.country,
        call_type := ctv,
        call_type_secondary := ct2v,
        date_of_event := dateSan (nullNorm call.date_of_event),
        time_of_event := timeSan (nullNorm call.time_of_event),
        setting := nullNorm call.setting,
        derek_commentary := nullNorm call.derek_commentary,
        caller_intro_snippet := nullNorm call.caller_intro_snippet,
        involves_other_witnesses := witSan call.involves_other_witnesses,
        caller_emotional_tone := toneSan call.caller_emotional_tone } := by
  unfold _sanitize_call at h
  rcases hct : callTypeSan call.call_type with e | v
  · rw [hct] at h; exact absurd h (by simp)
  · rcases hct2 : ct2San (nullNorm call.call_type_secondary) with e2 | v2
    · rw [hct, hct2] at h; exact absurd h (by simp)
    · rw [hct, hct2] at h
      refine ⟨v, v2, rfl, rfl, ?_⟩
      cases h
      rfl

lemma other_mem_labels : S "Other" ∈ VALID_ENTITY_LABELS := by decide

lemma callTypeSan_ok_mem {v ctv : PyVal} (h : callTypeSan v = .ok ctv) :
    ∃ s, ctv = .str s ∧ s ∈ VALID_ENTITY_LABELS := by
  cases v with
  | str s =>
    simp only [callTypeSan] at h
    by_cases hnil : s == []
    · rw [if_pos hnil] at h
      cases h
      exact ⟨_, rfl, other_mem_labels⟩
    · rw [if_neg hnil] at h
      by_cases hmem : VALID_ENTITY_LABELS.contains s
      · rw [if_pos hmem] at h
        cases h
        exact ⟨s, rfl, by simpa [List.elem_iff] using hmem⟩
      · rw [if_neg hmem] at h
        rcases hf : VALID_ENTITY_LABELS.find? (fun l => lowStr l == lowStr s) with _ | l
        · rw [hf] at h
          cases h
          exact ⟨_, rfl, other_mem_labels⟩
        · rw [hf] at h
          cases h
          exact ⟨l, rfl, List.mem_of_find?_eq_some hf⟩
  | none =>
    cases h
    exact ⟨_, rfl, other_mem_labels⟩
  | int n =>
    simp only [callTypeSan] at h
    by_cases hz : n == 0
    · rw [if_pos hz] at h
      cases h
      exact ⟨_, rfl, other_mem_labels⟩
    · rw [if_neg hz] at h
      cases h
  | bool b =>
    simp only [callTypeSan] at h
    cases b
    · simp only [Bool.false_eq_true, if_false] at h
      cases h
      exact ⟨_, rfl, other_mem_labels⟩
    · simp only [if_true] at h
      cases h

lemma labels_nonempty : ∀ l ∈ VALID_ENTITY_LABELS, l ≠ [] := by decide

/-- The entity labels are pairwise distinct after lowercasing, so the
case-insensitive scan over the source's Python set matches at most one
label and its iteration order is immaterial. -/
lemma labels_ci_nodup : (VALID_ENTITY_LABELS.map lowStr).Nodup := by decide

lemma callTypeSan_mem_eq {s : List Nat} (hmem : s ∈ VALID_ENTITY_LABELS) :
    callTypeSan (.str s) = .ok (.str s) := by
  have hne : s ≠ [] := labels_nonempty s hmem
  simp only [callTypeSan]
  rw [if_neg (by simp [hne]), if_pos (by simpa [List.elem_iff] using hmem)]

lemma callTypeSan_ci {s : List Nat} (hne : s ≠ []) (hnm : s ∉ VALID_ENTITY_LABELS)
    (hex : ∃ l ∈ VALID_ENTITY_LABELS, lowStr l = lowStr s) :
    ∃ l, callTypeSan (.str s) = .ok (.str l) ∧
      l ∈ VALID_ENTITY_LABELS ∧ lowStr l = lowStr s := by
  simp only [callTypeSan]
  rw [if_neg (by simp [hne]), if_neg (by simpa [List.elem_iff] using hnm)]
  have hsome : (VALID_ENTITY_LABELS.find? (fun l => lowStr l == lowStr s)).isSome := by
    apply List.find?_isSome.mpr
    obtain ⟨l, hl, he⟩ := hex
    exact ⟨l, hl, by simp [he]⟩
  rcases hf : VALID_ENTITY_LABELS.find? (fun l => lowStr l == lowStr s) with _ | l
  · rw [hf] at hsome; simp at hsome
  · refine ⟨l, rfl, List.mem_of_find?_eq_some hf, ?_⟩
    have := List.find?_some hf
    simpa using this

lemma callTypeSan_fallback {v : PyVal}
    (hfb : ∀ s, v = .str s →
      s = [] ∨ (s ∉ VALID_ENTITY_LABELS ∧ ∀ l ∈ VALID_ENTITY_LABELS, lowStr l ≠ lowStr s))
    {ctv : PyVal} (h : callTypeSan v = .ok ctv) : ctv = .str (S "Other") := by
  cases v with
  | str s =>
    rcases hfb s rfl with hnil | ⟨hnm, hnol⟩
    · subst hnil
      simp only [callTypeSan] at h
      cases h
      rfl
    · simp only [callTypeSan] at h
      by_cases hnil : s = []
      · subst hnil
        simp at h
        cases h
        rfl
      · rw [if_neg (by simp [hnil]), if_neg (by simpa [List.elem_iff] using hnm)] at h
        have hf : VALID_ENTITY_LABELS.find? (fun l => lowStr l == lowStr s) = Option.none := by
          apply List.find?_eq_none.mpr
          intro l hl
          simp [hnol l hl]
        rw [hf] at h
        cases h
        rfl
  | none => cases h; rfl
  | int n =>
    simp only [callTypeSan] at h
    by_cases hz : n == 0
    · rw [if_pos hz] at h; cases h; rfl
    · rw [if_neg hz] at h; cases h
  | bool b =>
    simp only [callTypeSan] at h
    cases b
    · simp only [Bool.false_eq_true, if_false] at h; cases h; rfl
    · simp only [if_true] at h; cases h

/-- C1: for every record the sanitizer processes to completion, the
resulting call_type is a member of VALID_ENTITY_LABELS — an exact member
passes through unchanged, a case-insensitive match is promoted to the
canonical-cased label, and any other value (empty, absent, unmatched, or a
falsy non-string) becomes the catch-all "Other". -/
theorem sanitize_call_type_vocab (call r : CallRec) (h : _sanitize_call call = .ok r) :
    (∃ s, r.call_type = .str s ∧ s ∈ VALID_ENTITY_LABELS) ∧
    (∀ s, call.call_type = .str s → s ∈ VALID_ENTITY_LABELS → r.call_type = .str s) ∧
    (∀ s, call.call_type = .str s → s ≠ [] → s ∉ VALID_ENTITY_LABELS →
      (∃ l ∈ VALID_ENTITY_LABELS, lowStr l = lowStr s) →
      ∃ l, r.call_type = .str l ∧ l ∈ VALID_ENTITY_LABELS ∧ lowStr l = lowStr s) ∧
    ((∀ s, call.call_type = .str s →
        s = [] ∨ (s ∉ VALID_ENTITY_LABELS ∧ ∀ l ∈ VALID_ENTITY_LABELS, lowStr l ≠ lowStr s)) →
      r.call_type = .str (S "Other")) := by
  obtain ⟨ctv, ct2v, hct, hct2, hr⟩ := sanitize_ok_inv h
  have hrct : r.call_type = ctv := by rw [hr]
  refine ⟨?_, ?_, ?_, ?_⟩
  · rw [hrct]
    exact callTypeSan_ok_mem hct
  · intro s hs hmem
    rw [hs] at hct
    rw [callTypeSan_mem_eq hmem] at hct
    cases hct
    exact hrct
  · intro s hs hne hnm hex
    rw [hs] at hct
    obtain ⟨l, hl, hlm, hle⟩ := callTypeSan_ci hne hnm hex
    rw [hl] at hct
    cases hct
    exact ⟨l, hrct, hlm, hle⟩
  · intro hfb
    rw [hrct]
    exact callTypeSan_fallback (fun s hs => hfb s (hs ▸ rfl)) hct

/-- Witness for `sanitize_call_type_vocab` at the empty record (absent
call_type becomes "Other", a member of the vocabulary). -/
theorem sanitize_call_type_vocab_witness :
    _sanitize_call {} =
      .ok { call_type := .str (S "Other"), involves_other_witnesses := .bool false,
            caller_emotional_tone := .str (S "matter-of-fact") } ∧
    (∃ s, ({ call_type := .str (S "Other"), involves_other_witnesses := .bool false,
             caller_emotional_tone := .str (S "matter-of-fact") } : CallRec).call_type = .str s ∧
       s ∈ VALID_ENTITY_LABELS) :=
  ⟨rfl, (sanitize_call_type_vocab {} _ rfl).1⟩

lemma clockShape_cases {tv : List Nat} (h : isClockShape tv = true) :
    (∃ a m1 m2, tv = [a, 58, m1, m2] ∧ isD a = true ∧ isD m1 = true ∧ isD m2 = true) ∨
    (∃ a b m1 m2, tv = [a, b, 58, m1, m2] ∧
      isD a = true ∧ isD b = true ∧ isD m1 = true ∧ isD m2 = true) := by
  rcases tv with _ | ⟨a, _ | ⟨c, _ | ⟨m1, _ | ⟨m2, _ | ⟨x5, _ | ⟨x6, rest⟩⟩⟩⟩⟩⟩
  · simp [isClockShape] at h
  · simp [isClockShape] at h
  · simp [isClockShape] at h
  · simp [isClockShape] at h
  · simp only [isClockShape, Bool.and_eq_true, beq_iff_eq] at h
    obtain ⟨⟨⟨ha, h58⟩, hd1⟩, hd2⟩ := h
    subst h58
    exact Or.inl ⟨a, m1, m2, rfl, ha, hd1, hd2⟩
  · simp only [isClockShape, Bool.and_eq_true, beq_iff_eq] at h
    obtain ⟨⟨⟨⟨ha, hb⟩, h58⟩, hd1⟩, hd2⟩ := h
    subst h58
    exact Or.inr ⟨a, c, m2, x5, rfl, ha, hb, hd1, hd2⟩
  · simp [isClockShape] at h

lemma padTwo_digits2 {n : Nat} (h : n < 100) :
    ∃ x y, padTwo n = [x, y] ∧ isD x = true ∧ isD y = true := by
  unfold padTwo
  by_cases h1 : n < 10
  · rw [if_pos h1]
    exact ⟨48, 48 + n, rfl, by simp [isD], by simp [isD]; omega⟩
  · rw [if_neg h1, if_pos h]
    refine ⟨48 + n / 10, 48 + n % 10, rfl, by simp [isD]; omega, by simp [isD]; omega⟩

lemma padTwo_digits3 {n : Nat} (h1 : 100 ≤ n) (h2 : n ≤ 999) :
    ∃ x y z, padTwo n = [x, y, z] ∧ isD x = true ∧ isD y = true ∧ isD z = true := by
  unfold padTwo
  rw [if_neg (by omega), if_neg (by omega)]
  refine ⟨48 + n / 100, 48 + n / 10 % 10, 48 + n % 10, rfl, ?_, ?_, ?_⟩ <;>
    (simp [isD]; omega)

lemma padTwo_parse2 {a b : Nat} (ha : isD a = true) (hb : isD b = true) :
    padTwo (parse2 a b) = [a, b] := by
  simp only [isD, Bool.and_eq_true, decide_eq_true_eq] at ha hb
  unfold padTwo parse2
  by_cases h1 : (a - 48) * 10 + (b - 48) < 10
  · rw [if_pos h1]
    simp only [List.cons.injEq, and_true]
    omega
  · rw [if_neg h1, if_pos (by omega)]
    simp only [List.cons.injEq, and_true]
    omega

lemma clockFrom_out {r mins : List Nat} {x : List Nat × Bool}
    (h : clockFrom r mins = some x) : x.1 = mins := by
  unfold clockFrom at h
  rcases ha : ampmAt (r.dropWhile isSp) with _ | pm
  · rw [ha] at h
    simp at h
  · rw [ha] at h
    cases h
    rfl

lemma clockTail_out {rest m : List Nat} {pm : Bool} (h : clockTail rest = some (m, pm)) :
    ∃ d1 d2, m = [d1, d2] ∧ isD d1 = true ∧ isD d2 = true := by
  have h00 : ∀ (r : List Nat), clockFrom r (S "00") = some (m, pm) →
      ∃ d1 d2, m = [d1, d2] ∧ isD d1 = true ∧ isD d2 = true := by
    intro r hr
    have := clockFrom_out hr
    exact ⟨48, 48, by simpa [S] using this, by decide, by decide⟩
  unfold clockTail at h
  rcases rest with _ | ⟨c1, _ | ⟨d1, _ | ⟨d2, r⟩⟩⟩
  · exact h00 _ h
  · exact h00 _ h
  · exact h00 _ h
  · simp only at h
    by_cases hd : (c1 == 58 && isD d1 && isD d2) = true
    · rw [if_pos hd] at h
      simp only [Bool.and_eq_true] at hd
      rcases hcf : clockFrom r [d1, d2] with _ | x
      · rw [hcf] at h
        exact h00 _ h
      · rw [hcf] at h
        cases h
        have := clockFrom_out hcf
        exact ⟨d1, d2, by rw [← this], hd.1.2, hd.2⟩
    · rw [if_neg hd] at h
      exact h00 _ h

lemma clockCore_out {s : List Nat} {h : Nat} {m : List Nat} {pm : Bool}
    (hc : clockCore s = some (h, m, pm)) :
    h ≤ 99 ∧ ∃ d1 d2, m = [d1, d2] ∧ isD d1 = true ∧ isD d2 = true := by
  rcases s with _ | ⟨c1, _ | ⟨c2, r⟩⟩
  · simp [clockCore] at hc
  · simp only [clockCore] at hc
    by_cases hd : isD c1 = true
    · rw [if_pos hd] at hc
      rcases ht : clockTail [] with _ | x
      · rw [ht] at hc; simp at hc
      · rw [ht] at hc
        rcases x with ⟨mm, pp⟩
        simp only at hc
        cases hc
        refine ⟨?_, clockTail_out ht⟩
        simp only [isD, Bool.and_eq_true, decide_eq_true_eq] at hd
        omega
    · rw [if_neg hd] at hc; simp at hc
  · simp only [clockCore] at hc
    by_cases h1 : isD c1 = true
    · rw [if_pos h1] at hc
      by_cases h2 : isD c2 = true
      · rw [if_pos h2] at hc
        rcases ht : clockTail r with _ | x
        · rw [ht] at hc
          rcases ht2 : clockTail (c2 :: r) with _ | y
          · rw [ht2] at hc; simp at hc
          · rw [ht2] at hc
            rcases y with ⟨mm, pp⟩
            simp only at hc
            cases hc
            refine ⟨?_, clockTail_out ht2⟩
            simp only [isD, Bool.and_eq_true, decide_eq_true_eq] at h1
            omega
        · rw [ht] at hc
          rcases x with ⟨mm, pp⟩
          simp only at hc
          cases hc
          refine ⟨?_, clockTail_out ht⟩
          simp only [isD, Bool.and_eq_true, decide_eq_true_eq] at h1 h2
          unfold parse2
          omega
      · rw [if_neg h2] at hc
        rcases ht2 : clockTail (c2 :: r) with _ | y
        · rw [ht2] at hc; simp at hc
        · rw [ht2] at hc
          rcases y with ⟨mm, pp⟩
          simp only at hc
          cases hc
          refine ⟨?_, clockTail_out ht2⟩
          simp only [isD, Bool.and_eq_true, decide_eq_true_eq] at h1
          omega
    · rw [if_neg h1] at hc; simp at hc

lemma clock12_out {tv : List Nat} {h : Nat} {m : List Nat} {pm : Bool}
    (hc : clock12 tv = some (h, m, pm)) :
    h ≤ 99 ∧ ∃ d1 d2, m = [d1, d2] ∧ isD d1 = true ∧ isD d2 = true := by
  unfold clock12 at hc
  by_cases ha : (S "around").isPrefixOf tv = true
  · rw [if_pos ha] at hc
    by_cases hl : ((tv.drop 6).dropWhile isSp).length < (tv.drop 6).length
    · rw [if_pos hl] at hc
      rcases h1 : clockCore ((tv.drop 6).dropWhile isSp) with _ | x
      · rw [h1] at hc
        exact clockCore_out hc
      · rw [h1] at hc
        cases hc
        exact clockCore_out h1
    · rw [if_neg hl] at hc
      exact clockCore_out hc
  · rw [if_neg ha] at hc
    exact clockCore_out hc

lemma twm_clock5 : ∀ p ∈ TIME_WORD_MAP, clock5 p.2 = true := by decide

lemma parseDigits_one (a : Nat) : parseDigits [a] = a - 48 := by
  simp [parseDigits]

lemma parseDigits_two (a b : Nat) : parseDigits [a, b] = (a - 48) * 10 + (b - 48) := by
  simp [parseDigits]

lemma timeSanCore_cases (tv : List Nat) :
    timeSanCore tv = .none ∨
      ∃ u, timeSanCore tv = .str u ∧ timeShapeOK u = true := by
  unfold timeSanCore
  by_cases hcs : isClockShape tv = true
  · rw [if_pos hcs]
    right
    rcases clockShape_cases hcs with
      ⟨a, m1, m2, htv, da, dm1, dm2⟩ | ⟨a, b, m1, m2, htv, da, db, dm1, dm2⟩
    · have h58 : (a != 58) = true := by
        simp only [isD, Bool.and_eq_true, decide_eq_true_eq] at da
        simp only [bne_iff_ne, ne_eq]
        omega
      have htake : tv.takeWhile (fun c => c != 58) = [a] := by
        rw [htv]
        simp [List.takeWhile_cons, h58]
      have hdrop : (tv.dropWhile (fun c => c != 58)).drop 1 = [m1, m2] := by
        rw [htv]
        simp [List.dropWhile_cons, h58]
      rw [htake, hdrop, parseDigits_one]
      have hlt : a - 48 < 100 := by
        simp only [isD, Bool.and_eq_true, decide_eq_true_eq] at da
        omega
      obtain ⟨x, y, hxy, dx, dy⟩ := padTwo_digits2 hlt
      refine ⟨_, rfl, ?_⟩
      rw [hxy]
      simp [timeShapeOK, clock5, dx, dy, dm1, dm2]
    · have h58a : (a != 58) = true := by
        simp only [isD, Bool.and_eq_true, decide_eq_true_eq] at da
        simp only [bne_iff_ne, ne_eq]
        omega
      have h58b : (b != 58) = true := by
        simp only [isD, Bool.and_eq_true, decide_eq_true_eq] at db
        simp only [bne_iff_ne, ne_eq]
        omega
      have htake : tv.takeWhile (fun c => c != 58) = [a, b] := by
        rw [htv]
        simp [List.takeWhile_cons, h58a, h58b]
      have hdrop : (tv.dropWhile (fun c => c != 58)).drop 1 = [m1, m2] := by
        rw [htv]
        simp [List.dropWhile_cons, h58a, h58b]
      rw [htake, hdrop, parseDigits_two]
      have hlt : (a - 48) * 10 + (b - 48) < 100 := by
        simp only [isD, Bool.and_eq_true, decide_eq_true_eq] at da db
        omega
      obtain ⟨x, y, hxy, dx, dy⟩ := padTwo_digits2 hlt
      refine ⟨_, rfl, ?_⟩
      rw [hxy]
      simp [timeShapeOK, clock5, dx, dy, dm1, dm2]
  · rw [if_neg hcs]
    rcases hlk : alist.lookup TIME_WORD_MAP tv with _ | hhmm
    · rcases hcl : clock12 tv with _ | ⟨h, m, pm⟩
      · rcases hfp : TIME_WORD_MAP.find? (fun p => hasSub p.1 tv) with _ | p
        · rw [hfp]
          exact Or.inl rfl
        · rw [hfp]
          right
          refine ⟨p.2, rfl, ?_⟩
          have hmem := List.mem_of_find?_eq_some hfp
          simp [timeShapeOK, twm_clock5 p hmem]
      · right
        obtain ⟨hh, d1, d2, hm, dd1, dd2⟩ := clock12_out hcl
        set h2 := if pm && h != 12 then h + 12 else if !pm && h == 12 then 0 else h with hh2
        have hb : h2 ≤ 111 := by
          rw [hh2]
          split_ifs <;> omega
        by_cases hsmall : h2 < 100
        · obtain ⟨x, y, hxy, dx, dy⟩ := padTwo_digits2 hsmall
          refine ⟨_, rfl, ?_⟩
          rw [hxy, hm]
          simp [timeShapeOK, clock5, dx, dy, dd1, dd2]
        · obtain ⟨x, y, z, hxyz, dx, dy, dz⟩ := padTwo_digits3 (n := h2) (by omega) (by omega)
          refine ⟨_, rfl, ?_⟩
          rw [hxyz, hm]
          simp [timeShapeOK, clock6, dx, dy, dz, dd1, dd2]
    · right
      refine ⟨hhmm, rfl, ?_⟩
      unfold alist.lookup at hlk
      rcases hf : TIME_WORD_MAP.find? (fun p => p.1 == tv) with _ | p
      · rw [hf] at hlk; simp at hlk
      · rw [hf] at hlk
        simp only [Option.map] at hlk
        cases hlk
        have hmem := List.mem_of_find?_eq_some hf
        simp [timeShapeOK, twm_clock5 p hmem]

/-- C4 amended: after sanitization, a time_of_event that came in as a
string is either null or a colon-separated string with a two- or
three-digit hour and a two-digit minute — the rule enforces the shape but
not the numeric ranges (see the "99:99" counterexample), and a non-string
time_of_event passes through unchanged. -/
theorem sanitize_time_shape (call r : CallRec) (h : _sanitize_call call = .ok r) :
    ((∃ s, call.time_of_event = .str s) →
      r.time_of_event = .none ∨ ∃ u, r.time_of_event = .str u ∧ timeShapeOK u = true) ∧
    ((∀ s, call.time_of_event ≠ .str s) → r.time_of_event = call.time_of_event) := by
  obtain ⟨ctv, ct2v, hct, hct2, hr⟩ := sanitize_ok_inv h
  have hrt : r.time_of_event = timeSan (nullNorm call.time_of_event) := by rw [hr]
  constructor
  · rintro ⟨s, hs⟩
    rw [hrt, hs]
    simp only [nullNorm]
    by_cases hn : NULL_STRINGS.contains (lowStr (strip s)) = true
    · rw [if_pos hn]
      exact Or.inl rfl
    · rw [if_neg hn]
      simpa [timeSan] using timeSanCore_cases (lowStr (strip s))
  · intro hns
    rw [hrt]
    cases hv : call.time_of_event with
    | str s => exact absurd hv (hns s)
    | none => rfl
    | int n => rfl
    | bool b => rfl

/-- Witness for `sanitize_time_shape`: the string "3:45" is zero-padded to
the two-digit-hour shape "03:45". -/
theorem sanitize_time_shape_witness :
    _sanitize_call { time_of_event := .str (S "3:45") } =
      .ok { time_of_event := .str (S "03:45"), call_type := .str (S "Other"),
            involves_other_witnesses := .bool false,
            caller_emotional_tone := .str (S "matter-of-fact") } ∧
    (({ time_of_event := .str (S "03:45"), call_type := .str (S "Other"),
        involves_other_witnesses := .bool false,
        caller_emotional_tone := .str (S "matter-of-fact") } : CallRec).time_of_event = .none ∨
      ∃ u, ({ time_of_event := .str (S "03:45"), call_type := .str (S "Other"),
              involves_other_witnesses := .bool false,
              caller_emotional_tone := .str (S "matter-of-fact") } : CallRec).time_of_event
            = .str u ∧ timeShapeOK u = true) :=
  ⟨rfl,
   (sanitize_time_shape { time_of_event := .str (S "3:45") }
      { time_of_event := .str (S "03:45"), call_type := .str (S "Other"),
        involves_other_witnesses := .bool false,
        caller_emotional_tone := .str (S "matter-of-fact") } rfl).1 ⟨S "3:45", rfl⟩⟩

/-- C8 counterexample: a summary made of one four-letter word repeated
three times fires desc_words_match (and the verified flag) although only
ONE distinct qualifying word appears in the transcript — `re.findall`
keeps duplicates and the count is over occurrences, not distinct words. -/
theorem verify_distinct_counterexample :
    _verify_call (S "the wolf was here") { description := .str (S "wolf wolf wolf") } =
      .ok { description := .str (S "wolf wolf wolf"), verified := .bool true,
            verification_evidence := .str (S "desc_words_match") } ∧
    specDescSignalDistinct (S "wolf wolf wolf") (lowStr (S "the wolf was here")) = false :=
  ⟨rfl, by decide⟩

/-- C8 amended: the verified flag is true exactly when one of the four
evidence signals fires, and the desc_words_match tag appears in the
evidence string exactly when at least three occurrences (counted WITH
multiplicity, not distinct words) of four-or-more-letter summary words are
substrings of the transcript. -/
theorem verify_verdict (t : List Nat) (call r : CallRec)
    (snippet name state desc : List Nat)
    (h1 : getStrField call.caller_intro_snippet = .ok snippet)
    (h2 : getStrField call.caller_name = .ok name)
    (h3 : getStrField call.state_or_region = .ok state)
    (h4 : getStrField call.description = .ok desc)
    (h : _verify_call t call = .ok r) :
    r.verified = .bool
      (specSnippetSignal snippet (lowStr t) || specNameSignal name (lowStr t) ||
        specStateSignal state (lowStr t) || descSignalMult desc (lowStr t)) ∧
    ∃ e, r.verification_evidence = .str e ∧
      (hasSub (S "desc_words_match") e = true ↔ descSignalMult desc (lowStr t) = true) := by
  unfold _verify_call at h
  rw [h1, h2, h3, h4] at h
  simp only at h
  cases h
  simp only []
  rw [snippetEvidence_eq, nameEvidence_eq, stateEvidence_eq, descEvidence_eq]
  cases h1' : specSnippetSignal snippet (lowStr t) <;>
  cases h2' : specNameSignal name (lowStr t) <;>
  cases h3' : specStateSignal state (lowStr t) <;>
  cases h4' : descSignalMult desc (lowStr t) <;>
  cases hsb : hasSub (lowStr snippet) (lowStr t) <;>
    simp only [if_true, if_false, Bool.false_eq_true, ite_true, ite_false,
      List.append_nil, List.nil_append, List.cons_append, Bool.or_true, Bool.true_or,
      Bool.or_false, Bool.false_or, Bool.or_self] <;>
    exact ⟨rfl, _, rfl, by decide⟩

/-- Witness for `verify_verdict` at the repeated-word record. -/
theorem verify_verdict_witness :
    getStrField (PyVal.str (S "wolf wolf wolf")) = .ok (S "wolf wolf wolf") ∧
    _verify_call (S "the wolf was here") { description := .str (S "wolf wolf wolf") } =
      .ok { description := .str (S "wolf wolf wolf"), verified := .bool true,
            verification_evidence := .str (S "desc_words_match") } ∧
    ({ description := .str (S "wolf wolf wolf"), verified := .bool true,
       verification_evidence := .str (S "desc_words_match") } : CallRec).verified = .bool
      (specSnippetSignal [] (lowStr (S "the wolf was here")) ||
        specNameSignal [] (lowStr (S "the wolf was here")) ||
        specStateSignal [] (lowStr (S "the wolf was here")) ||
        descSignalMult (S "wolf wolf wolf") (lowStr (S "the wolf was here"))) ∧
    ∃ e, ({ description := .str (S "wolf wolf wolf"), verified := .bool true,
            verification_evidence := .str (S "desc_words_match") } : CallRec).verification_evidence
        = .str e ∧
      (hasSub (S "desc_words_match") e = true ↔
        descSignalMult (S "wolf wolf wolf") (lowStr (S "the wolf was here")) = true) :=
  ⟨rfl, rfl,
   verify_verdict (S "the wolf was here") { description := .str (S "wolf wolf wolf") }
     { description := .str (S "wolf wolf wolf"), verified := .bool true,
       verification_evidence := .str (S "desc_words_match") }
     [] [] [] (S "wolf wolf wolf") rfl rfl rfl rfl rfl⟩

lemma loC_loC (c : Nat) : loC (loC c) = loC c := by
  simp only [loC]
  split_ifs <;>
    first
    | rfl
    | (simp only [isUpC, Bool.and_eq_true, decide_eq_true_eq] at *; omega)

lemma upC_upC (c : Nat) : upC (upC c) = upC c := by
  simp only [upC]
  split_ifs <;>
    first
    | rfl
    | (simp only [isLoC, Bool.and_eq_true, decide_eq_true_eq] at *; omega)

lemma loC_upC (c : Nat) : loC (upC c) = loC c := by
  simp only [loC, upC]
  split_ifs <;>
    first
    | rfl
    | (simp only [isUpC, isLoC, Bool.and_eq_true, decide_eq_true_eq] at *; omega)

lemma upC_loC (c : Nat) : upC (loC c) = upC c := by
  simp only [loC, upC]
  split_ifs <;>
    first
    | rfl
    | (simp only [isUpC, isLoC, Bool.and_eq_true, decide_eq_true_eq] at *; omega)

lemma isAl_loC (c : Nat) : isAl (loC c) = isAl c := by
  simp only [loC]
  split_ifs with h
  · simp only [isUpC, Bool.and_eq_true, decide_eq_true_eq] at h
    rw [Bool.eq_iff_iff]
    simp only [isAl, isUpC, isLoC, Bool.or_eq_true, Bool.and_eq_true, decide_eq_true_eq]
    omega
  · rfl

lemma isAl_upC (c : Nat) : isAl (upC c) = isAl c := by
  simp only [upC]
  split_ifs with h
  · simp only [isLoC, Bool.and_eq_true, decide_eq_true_eq] at h
    rw [Bool.eq_iff_iff]
    simp only [isAl, isUpC, isLoC, Bool.or_eq_true, Bool.and_eq_true, decide_eq_true_eq]
    omega
  · rfl

lemma isSp_loC (c : Nat) : isSp (loC c) = isSp c := by
  simp only [loC]
  split_ifs with h
  · simp only [isUpC, Bool.and_eq_true, decide_eq_true_eq] at h
    rw [Bool.eq_iff_iff]
    simp only [isSp, Bool.or_eq_true, beq_iff_eq]
    omega
  · rfl

lemma isSp_upC (c : Nat) : isSp (upC c) = isSp c := by
  simp only [upC]
  split_ifs with h
  · simp only [isLoC, Bool.and_eq_true, decide_eq_true_eq] at h
    rw [Bool.eq_iff_iff]
    simp only [isSp, Bool.or_eq_true, beq_iff_eq]
    omega
  · rfl

lemma strip_eq (s : List Nat) : strip s = List.rdropWhile isSp (s.dropWhile isSp) := rfl

lemma strip_idem (s : List Nat) : strip (strip s) = strip s := by
  rw [strip_eq, strip_eq]
  have hdrop : (List.rdropWhile isSp (s.dropWhile isSp)).dropWhile isSp
      = List.rdropWhile isSp (s.dropWhile isSp) := by
    rw [List.dropWhile_eq_self_iff]
    intro hl hp
    have hpre := List.rdropWhile_prefix isSp (s.dropWhile isSp)
    have hlen : 0 < (s.dropWhile isSp).length :=
      Nat.lt_of_lt_of_le hl (List.IsPrefix.length_le hpre)
    have hgot := List.IsPrefix.getElem hpre hl
    have hnot := List.dropWhile_get_zero_not isSp s hlen
    simp only [List.get_eq_getElem] at hnot
    rw [← hgot] at hnot
    simp only [List.get_eq_getElem] at hp
    exact hnot hp
  rw [hdrop, List.rdropWhile_idempotent]

lemma noSp_strip {l : List Nat} (h : ∀ c ∈ l, isSp c = false) : strip l = l := by
  rw [strip_eq]
  have h1 : l.dropWhile isSp = l := by
    rw [List.dropWhile_eq_self_iff]
    intro hl hp
    have := h (l.get ⟨0, hl⟩) (List.get_mem l 0 hl)
    rw [this] at hp
    cases hp
  rw [h1, List.rdropWhile_eq_self_iff]
  intro hl hp
  have := h (l.getLast hl) (List.getLast_mem hl)
  rw [this] at hp
  cases hp

lemma titleGo_length (b : Bool) (s : List Nat) : (titleGo b s).length = s.length := by
  induction s generalizing b with
  | nil => rfl
  | cons c rest ih => simp [titleGo, ih]

lemma titleGo_cons (b : Bool) (c : Nat) (rest : List Nat) :
    titleGo b (c :: rest) =
      (if isAl c then (if b then loC c else upC c) else c) :: titleGo (isAl c) rest := rfl

lemma isSp_titleChar (b : Bool) (c : Nat) :
    isSp (if isAl c then (if b then loC c else upC c) else c) = isSp c := by
  split_ifs with h1 h2
  · exact isSp_loC c
  · exact isSp_upC c
  · rfl

lemma titleGo_getLast? (b : Bool) (s : List Nat) :
    (titleGo b s).getLast?.map isSp = s.getLast?.map isSp := by
  induction s generalizing b with
  | nil => rfl
  | cons c rest ih =>
    cases rest with
    | nil => simp [titleGo, isSp_titleChar]
    | cons d t =>
      rw [titleGo_cons]
      rw [List.getLast?_cons_cons]
      rw [show titleGo (isAl c) (d :: t) = _ from titleGo_cons (isAl c) d t]
      rw [List.getLast?_cons_cons, ← titleGo_cons (isAl c) d t, ih (isAl c)]

lemma strip_eq_self_parts {s : List Nat} (hs : strip s = s) :
    s.dropWhile isSp = s ∧ List.rdropWhile isSp s = s := by
  have hdw : s.dropWhile isSp = s := by
    have hsuf : s.dropWhile isSp <:+ s := List.dropWhile_suffix isSp
    refine List.IsSuffix.eq_of_length hsuf ?_
    have h1 : s.length ≤ (s.dropWhile isSp).length := by
      conv_lhs => rw [← hs, strip_eq]
      exact List.IsPrefix.length_le (List.rdropWhile_prefix _ _)
    have h2 : (s.dropWhile isSp).length ≤ s.length := List.IsSuffix.length_le hsuf
    omega
  refine ⟨hdw, ?_⟩
  rw [strip_eq, hdw] at hs
  exact hs

lemma strip_titleGo {s : List Nat} (b : Bool) (hs : strip s = s) :
    strip (titleGo b s) = titleGo b s := by
  obtain ⟨hdw, hrd⟩ := strip_eq_self_parts hs
  have hhead := List.dropWhile_eq_self_iff.mp hdw
  have hlast := List.rdropWhile_eq_self_iff.mp hrd
  rw [strip_eq]
  have h1 : (titleGo b s).dropWhile isSp = titleGo b s := by
    rw [List.dropWhile_eq_self_iff]
    intro hl
    cases s with
    | nil => simp [titleGo] at hl
    | cons c rest =>
      have he : (titleGo b (c :: rest)).get ⟨0, hl⟩
          = (if isAl c then (if b then loC c else upC c) else c) := rfl
      rw [he, isSp_titleChar]
      intro hp
      exact hhead (by simp) hp
  rw [h1, List.rdropWhile_eq_self_iff]
  intro hl hp
  have hsne : s ≠ [] := by
    intro he
    subst he
    simp [titleGo] at hl
  have e1 : (titleGo b s).getLast? = some ((titleGo b s).getLast hl) :=
    List.getLast?_eq_getLast _ hl
  have e2 : s.getLast? = some (s.getLast hsne) := List.getLast?_eq_getLast _ hsne
  have := titleGo_getLast? b s
  rw [e1, e2] at this
  have hii : isSp ((titleGo b s).getLast hl) = isSp (s.getLast hsne) := by
    have h2 := this
    simp only [Option.map] at h2
    exact Option.some.inj h2
  rw [hii] at hp
  exact hlast hsne hp

lemma lowStr_titleGo (b : Bool) (s : List Nat) : lowStr (titleGo b s) = lowStr s := by
  induction s generalizing b with
  | nil => rfl
  | cons c rest ih =>
    rw [titleGo_cons]
    simp only [lowStr, List.map_cons] at ih ⊢
    rw [ih]
    congr 1
    split_ifs with h1 h2
    · exact loC_loC c
    · exact loC_upC c
    · rfl

lemma upStr_titleGo (b : Bool) (s : List Nat) : upStr (titleGo b s) = upStr s := by
  induction s generalizing b with
  | nil => rfl
  | cons c rest ih =>
    rw [titleGo_cons]
    simp only [upStr, List.map_cons] at ih ⊢
    rw [ih]
    congr 1
    split_ifs with h1 h2
    · exact upC_loC c
    · exact upC_upC c
    · rfl

lemma titleChar_idem (b : Bool) (c : Nat) :
    (if isAl c
     then (if b then loC (if isAl c then (if b then loC c else upC c) else c)
           else upC (if isAl c then (if b then loC c else upC c) else c))
     else (if isAl c then (if b then loC c else upC c) else c)) =
    (if isAl c then (if b then loC c else upC c) else c) := by
  by_cases h : isAl c = true
  · simp only [if_pos h]
    cases b
    · simp only [Bool.false_eq_true, if_false]
      exact upC_upC c
    · simp only [if_true]
      exact loC_loC c
  · simp only [if_neg h]

lemma titleGo_idem (b : Bool) (s : List Nat) : titleGo b (titleGo b s) = titleGo b s := by
  induction s generalizing b with
  | nil => rfl
  | cons c rest ih =>
    rw [titleGo_cons, titleGo_cons]
    have hAl : isAl (if isAl c then (if b then loC c else upC c) else c) = isAl c := by
      split_ifs with h1 h2
      · exact isAl_loC c
      · exact isAl_upC c
      · rfl
    rw [hAl, ih (isAl c)]
    congr 1
    exact titleChar_idem b c

lemma title_idem (s : List Nat) : title (title s) = title s := titleGo_idem false s

lemma nullNorm_idem (v : PyVal) : nullNorm (nullNorm v) = nullNorm v := by
  cases v with
  | str s =>
    simp only [nullNorm]
    by_cases h : NULL_STRINGS.contains (lowStr (strip s)) = true
    · rw [if_pos h]
    · rw [if_neg h]
      simp only [nullNorm]
      rw [if_neg h]
  | none => rfl
  | int n => rfl
  | bool b => rfl

/-- The canonical state names written by the lookup branches of the state
rule are fixed points of the whole rule: stripped, not an abbreviation or
alias key, not null-like, and not uniformly cased. -/
def stateFixed (f : List Nat) : Bool :=
  (strip f == f) && (STATE_ABBREV_TO_FULL.find? (fun q => q.1 == upStr f)).isNone
    && (STATE_ALIASES.find? (fun q => q.1 == lowStr f)).isNone
    && !(NULL_STRINGS.contains (lowStr f)) && !(f == lowStr f) && !(f == upStr f)

lemma abbrev_vals_fixed : STATE_ABBREV_TO_FULL.all (fun p => stateFixed p.2) = true := by
  decide

lemma alias_vals_fixed : STATE_ALIASES.all (fun p => stateFixed p.2) = true := by
  decide

lemma lookup_fixed {l : List (List Nat × List Nat)} {k f : List Nat}
    (hall : l.all (fun p => stateFixed p.2) = true)
    (h : alist.lookup l k = some f) : stateFixed f = true := by
  unfold alist.lookup at h
  rcases hf : l.find? (fun p => p.1 == k) with _ | p
  · rw [hf] at h; simp at h
  · rw [hf] at h
    simp only [Option.map] at h
    cases h
    exact List.all_eq_true.mp hall p (List.mem_of_find?_eq_some hf)

lemma stateFixed_norm {f : List Nat} (h : stateFixed f = true) :
    stateNorm (.str f) = .str f ∧ nullNorm (.str f) = .str f := by
  simp only [stateFixed, Bool.and_eq_true, beq_iff_eq, Option.isNone_iff_eq_none,
    Bool.not_eq_true', beq_eq_false_iff_ne, ne_eq] at h
  obtain ⟨⟨⟨⟨⟨hstrip, hab⟩, hal⟩, hnull⟩, hlo⟩, hup⟩ := h
  constructor
  · simp only [stateNorm, hstrip]
    unfold alist.lookup
    rw [hab, hal]
    simp only [Option.map]
    rw [if_neg (by rw [hnull]; simp)]
    have hcond : (f == lowStr f || f == upStr f) = false := by
      simp only [Bool.or_eq_false_iff, beq_eq_false_iff_ne, ne_eq]
      exact ⟨hlo, hup⟩
    rw [if_neg (by rw [hcond]; simp)]
  · simp only [nullNorm, hstrip, hnull]
    simp

lemma stateNorm_str_cases (s0 : List Nat) :
    (∃ f, stateNorm (.str s0) = .str f ∧ stateFixed f = true) ∨
    stateNorm (.str s0) = .none ∨
    ((stateNorm (.str s0) = .str (title (strip s0)) ∨
        (stateNorm (.str s0) = .str (strip s0) ∧
          ((strip s0 == lowStr (strip s0) || strip s0 == upStr (strip s0)) = false))) ∧
      alist.lookup STATE_ABBREV_TO_FULL (upStr (strip s0)) = Option.none ∧
      alist.lookup STATE_ALIASES (lowStr (strip s0)) = Option.none ∧
      NULL_STRINGS.contains (lowStr (strip s0)) = false) := by
  simp only [stateNorm]
  rcases h1 : alist.lookup STATE_ABBREV_TO_FULL (upStr (strip s0)) with _ | f
  · rcases h2 : alist.lookup STATE_ALIASES (lowStr (strip s0)) with _ | f
    · by_cases h3 : NULL_STRINGS.contains (lowStr (strip s0)) = true
      · rw [if_pos h3]
        exact Or.inr (Or.inl rfl)
      · rw [if_neg h3]
        refine Or.inr (Or.inr ⟨?_, rfl, rfl, by simpa using h3⟩)
        by_cases h4 : (strip s0 == lowStr (strip s0) || strip s0 == upStr (strip s0)) = true
        · rw [if_pos h4]
          exact Or.inl rfl
        · rw [if_neg h4]
          exact Or.inr ⟨rfl, by simpa using h4⟩
    · exact Or.inl ⟨f, rfl, lookup_fixed alias_vals_fixed h2⟩
  · exact Or.inl ⟨f, rfl, lookup_fixed abbrev_vals_fixed h1⟩

lemma stateNorm_stable (v : PyVal) :
    stateNorm (nullNorm (stateNorm (nullNorm v))) = stateNorm (nullNorm v) := by
  cases v with
  | none => rfl
  | int n => rfl
  | bool b => rfl
  | str s0 =>
    by_cases hn : NULL_STRINGS.contains (lowStr (strip s0)) = true
    · have h0 : nullNorm (.str s0) = .none := by
        simp only [nullNorm]
        rw [if_pos hn]
      rw [h0]
      rfl
    · have h0 : nullNorm (.str s0) = .str s0 := by
        simp only [nullNorm]
        rw [if_neg hn]
      rw [h0]
      rcases stateNorm_str_cases s0 with ⟨f, hf, hfix⟩ | hnone | ⟨hw, hab, hal, hnul⟩
      · rw [hf]
        obtain ⟨hs1, hn1⟩ := stateFixed_norm hfix
        rw [hn1, hs1]
      · rw [hnone]
        rfl
      · have hstrips : strip (strip s0) = strip s0 := strip_idem s0
        rcases hw with htitle | ⟨hpres, hnonuni⟩
        · rw [htitle]
          have hstripw : strip (title (strip s0)) = title (strip s0) :=
            strip_titleGo false hstrips
          have hloww : lowStr (title (strip s0)) = lowStr (strip s0) :=
            lowStr_titleGo false _
          have hupw : upStr (title (strip s0)) = upStr (strip s0) :=
            upStr_titleGo false _
          have hnn : nullNorm (.str (title (strip s0))) = .str (title (strip s0)) := by
            simp only [nullNorm, hstripw, hloww, hnul]
            simp
          rw [hnn]
          simp only [stateNorm, hstripw, hupw, hloww]
          rw [hab, hal]
          rw [if_neg (by rw [hnul]; simp)]
          by_cases hu : (title (strip s0) == lowStr (strip s0)
              || title (strip s0) == upStr (strip s0)) = true
          · rw [if_pos hu, title_idem]
          · rw [if_neg hu]
        · rw [hpres]
          have hnn : nullNorm (.str (strip s0)) = .str (strip s0) := by
            simp only [nullNorm, hstrips, hnul]
            simp
          rw [hnn]
          simp only [stateNorm, hstrips]
          rw [hab, hal]
          rw [if_neg (by rw [hnul]; simp)]
          rw [if_neg (by rw [hnonuni]; simp)]

lemma loC_small {c : Nat} (h : c < 65) : loC c = c := by
  unfold loC isUpC
  rw [if_neg]
  simp only [Bool.and_eq_true, decide_eq_true_eq]
  omega

lemma lowStr_id {l : List Nat} (h : ∀ c ∈ l, c < 65) : lowStr l = l := by
  induction l with
  | nil => rfl
  | cons c rest ih =>
    simp only [lowStr, List.map_cons]
    rw [loC_small (h c (List.mem_cons_self c rest))]
    have := ih (fun x hx => h x (List.mem_cons_of_mem c hx))
    simp only [lowStr] at this
    rw [this]

lemma isSp_small {c : Nat} (h1 : 45 ≤ c) (h2 : c ≤ 57) : isSp c = false := by
  rw [Bool.eq_false_iff]
  intro hsp
  simp only [isSp, Bool.or_eq_true, beq_iff_eq] at hsp
  omega

lemma null_heads : NULL_STRINGS.all (fun w => !isD (w.headD 0)) = true := by decide

lemma digit_head_not_null {u : List Nat} (h : isD (u.headD 0) = true) :
    NULL_STRINGS.contains u = false := by
  by_cases hm : u ∈ NULL_STRINGS
  · have := List.all_eq_true.mp null_heads u hm
    rw [h] at this
    cases this
  · simpa [List.elem_iff] using hm

lemma isFullDate_cases {u : List Nat} (h : isFullDate u = true) :
    ∃ a b c d e f g k, u = [a, b, c, d, 45, e, f, 45, g, k] ∧
      isD a = true ∧ isD b = true ∧ isD c = true ∧ isD d = true ∧
      isD e = true ∧ isD f = true ∧ isD g = true ∧ isD k = true := by
  rcases u with _ | ⟨x1, _ | ⟨x2, _ | ⟨x3, _ | ⟨x4, _ | ⟨x5, _ | ⟨x6, _ | ⟨x7,
    _ | ⟨x8, _ | ⟨x9, _ | ⟨x10, _ | ⟨x11, rest⟩⟩⟩⟩⟩⟩⟩⟩⟩⟩⟩ <;>
      simp only [isFullDate, Bool.and_eq_true, beq_iff_eq] at h
  · exact absurd h (by simp)
  · exact absurd h (by simp)
  · exact absurd h (by simp)
  · exact absurd h (by simp)
  · exact absurd h (by simp)
  · exact absurd h (by simp)
  · exact absurd h (by simp)
  · exact absurd h (by simp)
  · exact absurd h (by simp)
  · exact absurd h (by simp)
  · obtain ⟨⟨⟨⟨⟨⟨⟨⟨⟨ha, hb⟩, hc⟩, hd⟩, h45a⟩, he⟩, hf⟩, h45b⟩, hg⟩, hk⟩ := h
    subst h45a h45b
    exact ⟨x1, x2, x3, x4, x6, x7, x9, x10, rfl, ha, hb, hc, hd, he, hf, hg, hk⟩
  · exact absurd h (by simp)

lemma isFullDate_facts {u : List Nat} (h : isFullDate u = true) :
    lowStr u = u ∧ strip u = u ∧ NULL_STRINGS.contains (lowStr u) = false := by
  obtain ⟨a, b, c, d, e, f, g, k, hu, ha, hb, hc, hd, he, hf, hg, hk⟩ := isFullDate_cases h
  simp only [isD, Bool.and_eq_true, decide_eq_true_eq] at ha hb hc hd he hf hg hk
  have hrange : ∀ x ∈ u, 45 ≤ x ∧ x ≤ 57 := by
    subst hu
    intro x hx
    simp only [List.mem_cons, List.not_mem_nil, or_false] at hx
    rcases hx with rfl | rfl | rfl | rfl | rfl | rfl | rfl | rfl | rfl | rfl <;> omega
  have hlow : lowStr u = u := lowStr_id (fun x hx => by have := hrange x hx; omega)
  refine ⟨hlow, noSp_strip (fun x hx => isSp_small (hrange x hx).1 (hrange x hx).2), ?_⟩
  rw [hlow]
  apply digit_head_not_null
  subst hu
  simpa [isD] using ha

lemma year4_append (s : List Nat) (h : isYear4 s = true) :
    isFullDate (s ++ S "-01-01") = true := by
  rcases s with _ | ⟨a, _ | ⟨b, _ | ⟨c, _ | ⟨d, _ | ⟨e, rest⟩⟩⟩⟩⟩ <;>
    simp only [isYear4, Bool.and_eq_true] at h
  all_goals
    first
    | exact absurd h Bool.false_ne_true
    | (obtain ⟨⟨⟨ha, hb⟩, hc⟩, hd⟩ := h
       simp only [isD, Bool.and_eq_true, decide_eq_true_eq] at ha hb hc hd
       simp only [S]
       simp only [List.cons_append, List.nil_append]
       simp [isFullDate, isD]
       omega)

lemma yearMonth_append (s : List Nat) (h : isYearMonth s = true) :
    isFullDate (s ++ S "-01") = true := by
  rcases s with _ | ⟨a, _ | ⟨b, _ | ⟨c, _ | ⟨d, _ | ⟨e, _ | ⟨f, _ | ⟨g, _ | ⟨x, r⟩⟩⟩⟩⟩⟩⟩⟩ <;>
    simp only [isYearMonth, Bool.and_eq_true, beq_iff_eq] at h
  all_goals
    first
    | exact absurd h Bool.false_ne_true
    | (obtain ⟨⟨⟨⟨⟨⟨ha, hb⟩, hc⟩, hd⟩, h45⟩, he⟩, hf⟩ := h
       subst h45
       simp only [isD, Bool.and_eq_true, decide_eq_true_eq] at ha hb hc hd he hf
       simp only [S]
       simp only [List.cons_append, List.nil_append]
       simp [isFullDate, isD]
       omega)

lemma search4s_out : ∀ {s d : List Nat}, search4s s = some d →
    ∃ a b c e, d = [a, b, c, e] ∧ isD a = true ∧ isD b = true ∧ isD c = true ∧ isD e = true := by
  intro s
  induction s with
  | nil => intro d h; simp [search4s] at h
  | cons a rest ih =>
    intro d h
    rcases rest with _ | ⟨b, _ | ⟨c, _ | ⟨e, _ | ⟨f, r⟩⟩⟩⟩
    · simp only [search4s] at h
      exact ih h
    · simp only [search4s] at h
      exact ih h
    · simp only [search4s] at h
      exact ih h
    · simp only [search4s] at h
      exact ih h
    · simp only [search4s] at h
      by_cases hc : (isD a && isD b && isD c && isD e && f == 115) = true
      · rw [if_pos hc] at h
        cases h
        simp only [Bool.and_eq_true] at hc
        exact ⟨a, b, c, e, rfl, hc.1.1.1.1, hc.1.1.1.2, hc.1.1.2, hc.1.2⟩
      · rw [if_neg hc] at h
        exact ih h

lemma search2s_out : ∀ {s d : List Nat}, search2s s = some d →
    ∃ a b, d = [a, b] ∧ isD a = true ∧ isD b = true := by
  intro s
  induction s with
  | nil => intro d h; simp [search2s] at h
  | cons a rest ih =>
    intro d h
    rcases rest with _ | ⟨b, _ | ⟨c, r⟩⟩
    · simp only [search2s] at h
      exact ih h
    · simp only [search2s] at h
      exact ih h
    · simp only [search2s] at h
      by_cases hc : (isD a && isD b && c == 115) = true
      · rw [if_pos hc] at h
        cases h
        simp only [Bool.and_eq_true] at hc
        exact ⟨a, b, rfl, hc.1.1, hc.1.2⟩
      · rw [if_neg hc] at h
        exact ih h

lemma digits4_date {a b c e : Nat} (ha : isD a = true) (hb : isD b = true)
    (hc : isD c = true) (he : isD e = true) :
    isFullDate ([a, b, c, e] ++ S "-01-01") = true := by
  simp only [isD, Bool.and_eq_true, decide_eq_true_eq] at ha hb hc he
  simp only [S]
  simp only [List.cons_append, List.nil_append]
  simp [isFullDate, isD]
  omega

lemma digits2_date {a b p q : Nat} (hp : isD p = true) (hq : isD q = true)
    (ha : isD a = true) (hb : isD b = true) :
    isFullDate (([p, q] ++ [a, b]) ++ S "-01-01") = true := by
  simp only [isD, Bool.and_eq_true, decide_eq_true_eq] at ha hb hp hq
  simp only [S]
  simp only [List.cons_append, List.nil_append]
  simp [isFullDate, isD]
  omega

lemma dateSan_str_out (s0 : List Nat) :
    dateSan (.str s0) = .none ∨
    ∃ u, dateSan (.str s0) = .str u ∧ isFullDate (strip u) = true ∧
      NULL_STRINGS.contains (lowStr (strip u)) = false := by
  simp only [dateSan]
  by_cases h1 : isFullDate (strip s0) = true
  · rw [if_pos h1]
    obtain ⟨hlow, hstrip, hnull⟩ := isFullDate_facts h1
    rw [hlow] at hnull
    exact Or.inr ⟨s0, rfl, h1, by rw [hlow]; exact hnull⟩
  · rw [if_neg h1]
    by_cases h2 : isYear4 (strip s0) = true
    · rw [if_pos h2]
      have hfd := year4_append _ h2
      obtain ⟨hlow, hstrip, hnull⟩ := isFullDate_facts hfd
      exact Or.inr ⟨_, rfl, by rw [hstrip]; exact hfd, by rw [hstrip, hlow]; rw [hlow] at hnull; exact hnull⟩
    · rw [if_neg h2]
      by_cases h3 : isYearMonth (strip s0) = true
      · rw [if_pos h3]
        have hfd := yearMonth_append _ h3
        obtain ⟨hlow, hstrip, hnull⟩ := isFullDate_facts hfd
        exact Or.inr ⟨_, rfl, by rw [hstrip]; exact hfd, by rw [hstrip, hlow]; rw [hlow] at hnull; exact hnull⟩
      · rw [if_neg h3]
        rcases h4 : search4s (strip s0) with _ | d4
        · rcases h5 : search2s (strip s0) with _ | d2
          · exact Or.inl rfl
          · obtain ⟨a, b, hd2, ha, hb⟩ := search2s_out h5
            subst hd2
            have hfd : isFullDate
                ((if 30 ≤ parse2 ([a, b].headD 0) ([a, b].getD 1 0) then S "19" else S "20")
                  ++ [a, b] ++ S "-01-01") = true := by
              by_cases h6 : 30 ≤ parse2 ([a, b].headD 0) ([a, b].getD 1 0)
              · rw [if_pos h6]
                exact digits2_date (by decide) (by decide) ha hb
              · rw [if_neg h6]
                exact digits2_date (by decide) (by decide) ha hb
            obtain ⟨hlow, hstrip, hnull⟩ := isFullDate_facts hfd
            exact Or.inr ⟨_, rfl, by rw [hstrip]; exact hfd,
              by rw [hstrip, hlow]; rw [hlow] at hnull; exact hnull⟩
        · obtain ⟨a, b, c, e, hd4, ha, hb, hc, he⟩ := search4s_out h4
          subst hd4
          have hfd : isFullDate ([a, b, c, e] ++ S "-01-01") = true :=
            digits4_date ha hb hc he
          obtain ⟨hlow, hstrip, hnull⟩ := isFullDate_facts hfd
          exact Or.inr ⟨_, rfl, by rw [hstrip]; exact hfd,
            by rw [hstrip, hlow]; rw [hlow] at hnull; exact hnull⟩

lemma dateSan_stable (v : PyVal) :
    dateSan (nullNorm (dateSan (nullNorm v))) = dateSan (nullNorm v) := by
  cases v with
  | none => rfl
  | int n => rfl
  | bool b => rfl
  | str s0 =>
    by_cases hn : NULL_STRINGS.contains (lowStr (strip s0)) = true
    · have h0 : nullNorm (.str s0) = .none := by
        simp only [nullNorm]
        rw [if_pos hn]
      rw [h0]
      rfl
    · have h0 : nullNorm (.str s0) = .str s0 := by
        simp only [nullNorm]
        rw [if_neg hn]
      rw [h0]
      rcases dateSan_str_out s0 with hnone | ⟨u, hu, hfd, hnl⟩
      · rw [hnone]
        rfl
      · rw [hu]
        have h1 : nullNorm (.str u) = .str u := by
          simp only [nullNorm]
          rw [if_neg (by rw [hnl]; simp)]
        rw [h1]
        simp only [dateSan]
        rw [if_pos hfd]

lemma clock5_cases {u : List Nat} (h : clock5 u = true) :
    ∃ a b m1 m2, u = [a, b, 58, m1, m2] ∧
      isD a = true ∧ isD b = true ∧ isD m1 = true ∧ isD m2 = true := by
  rcases u with _ | ⟨a, _ | ⟨b, _ | ⟨c, _ | ⟨m1, _ | ⟨m2, _ | ⟨x6, rest⟩⟩⟩⟩⟩⟩ <;>
    simp only [clock5, Bool.and_eq_true, beq_iff_eq] at h
  · exact absurd h Bool.false_ne_true
  · exact absurd h Bool.false_ne_true
  · exact absurd h Bool.false_ne_true
  · exact absurd h Bool.false_ne_true
  · exact absurd h Bool.false_ne_true
  · obtain ⟨⟨⟨⟨ha, hb⟩, h58⟩, hm1⟩, hm2⟩ := h
    subst h58
    exact ⟨a, b, m1, m2, rfl, ha, hb, hm1, hm2⟩
  · exact absurd h Bool.false_ne_true

lemma clock5_facts {u : List Nat} (h : clock5 u = true) :
    strip u = u ∧ lowStr u = u ∧ NULL_STRINGS.contains (lowStr u) = false ∧
      isClockShape u = true := by
  obtain ⟨a, b, m1, m2, hu, ha, hb, hm1, hm2⟩ := clock5_cases h
  simp only [isD, Bool.and_eq_true, decide_eq_true_eq] at ha hb hm1 hm2
  have hrange : ∀ x ∈ u, 48 ≤ x ∧ x ≤ 58 := by
    subst hu
    intro x hx
    simp only [List.mem_cons, List.not_mem_nil, or_false] at hx
    rcases hx with rfl | rfl | rfl | rfl | rfl <;> omega
  have hlow : lowStr u = u := lowStr_id (fun x hx => by have := hrange x hx; omega)
  have hsp : strip u = u := noSp_strip (fun x hx => by
    have := hrange x hx
    rw [Bool.eq_false_iff]
    intro hsp
    simp only [isSp, Bool.or_eq_true, beq_iff_eq] at hsp
    omega)
  refine ⟨hsp, hlow, ?_, ?_⟩
  · rw [hlow]
    apply digit_head_not_null
    subst hu
    simp only [List.headD_cons, isD, Bool.and_eq_true, decide_eq_true_eq]
    omega
  · subst hu
    simp [isClockShape, isD]
    omega

lemma timeSanCore_clock5_fix {u : List Nat} (h : clock5 u = true) :
    timeSanCore u = .str u := by
  obtain ⟨a, b, m1, m2, hu, ha, hb, hm1, hm2⟩ := clock5_cases h
  have hshape := (clock5_facts h).2.2.2
  unfold timeSanCore
  rw [if_pos hshape]
  have h58a : (a != 58) = true := by
    simp only [isD, Bool.and_eq_true, decide_eq_true_eq] at ha
    simp only [bne_iff_ne, ne_eq]
    omega
  have h58b : (b != 58) = true := by
    simp only [isD, Bool.and_eq_true, decide_eq_true_eq] at hb
    simp only [bne_iff_ne, ne_eq]
    omega
  have htake : u.takeWhile (fun c => c != 58) = [a, b] := by
    rw [hu]
    simp [List.takeWhile_cons, h58a, h58b]
  have hdrop : (u.dropWhile (fun c => c != 58)).drop 1 = [m1, m2] := by
    rw [hu]
    simp [List.dropWhile_cons, h58a, h58b]
  rw [htake, hdrop, parseDigits_two]
  have : padTwo ((a - 48) * 10 + (b - 48)) = [a, b] := padTwo_parse2 ha hb
  rw [this, hu]
  rfl

lemma timeSan_stable (v : PyVal) (h6 : threeDigitHourTime (timeSan (nullNorm v)) = false) :
    timeSan (nullNorm (timeSan (nullNorm v))) = timeSan (nullNorm v) := by
  cases v with
  | none => rfl
  | int n => rfl
  | bool b => rfl
  | str s0 =>
    by_cases hn : NULL_STRINGS.contains (lowStr (strip s0)) = true
    · have h0 : nullNorm (.str s0) = .none := by
        simp only [nullNorm]
        rw [if_pos hn]
      rw [h0]
      rfl
    · have h0 : nullNorm (.str s0) = .str s0 := by
        simp only [nullNorm]
        rw [if_neg hn]
      rw [h0] at h6 ⊢
      have hts : timeSan (.str s0) = timeSanCore (lowStr (strip s0)) := rfl
      rw [hts] at h6 ⊢
      rcases timeSanCore_cases (lowStr (strip s0)) with hnone | ⟨u, hu, hsh⟩
      · rw [hnone]
        rfl
      · rw [hu] at h6 ⊢
        simp only [threeDigitHourTime] at h6
        simp only [timeShapeOK, Bool.or_eq_true] at hsh
        have h5 : clock5 u = true := by
          rcases hsh with h5 | h6'
          · exact h5
          · rw [h6'] at h6
            exact absurd h6 (by simp)
        obtain ⟨hsp, hlow, hnl, _⟩ := clock5_facts h5
        have h1 : nullNorm (.str u) = .str u := by
          simp only [nullNorm]
          rw [if_neg (by rw [hsp, hnl]; simp)]
        rw [h1]
        have hts2 : timeSan (.str u) = timeSanCore (lowStr (strip u)) := rfl
        rw [hts2, hsp, hlow]
        exact timeSanCore_clock5_fix h5

lemma ct2San_ok_cases {v w : PyVal} (h : ct2San v = .ok w) :
    w = .none ∨ ∃ l, w = .str l ∧ l ∈ VALID_ENTITY_LABELS := by
  cases v with
  | none =>
    cases h
    exact Or.inl rfl
  | int n =>
    simp only [ct2San] at h
    exact absurd h (by simp)
  | bool b =>
    simp only [ct2San] at h
    exact absurd h (by simp)
  | str s =>
    simp only [ct2San] at h
    by_cases hc : VALID_ENTITY_LABELS.contains s = true
    · rw [if_pos hc] at h
      cases h
      exact Or.inr ⟨s, rfl, by simpa [List.elem_iff] using hc⟩
    · rw [if_neg hc] at h
      rcases hf : VALID_ENTITY_LABELS.find? (fun l => lowStr l == lowStr s) with _ | l
      · rw [hf] at h
        cases h
        exact Or.inl rfl
      · rw [hf] at h
        cases h
        exact Or.inr ⟨l, rfl, List.mem_of_find?_eq_some hf⟩

lemma labels_not_null : ∀ l ∈ VALID_ENTITY_LABELS,
    NULL_STRINGS.contains (lowStr (strip l)) = false := by decide

lemma ct2San_stable {v w : PyVal} (h : ct2San v = .ok w) :
    ct2San (nullNorm w) = .ok w := by
  rcases ct2San_ok_cases h with rfl | ⟨l, rfl, hl⟩
  · rfl
  · have hnn : nullNorm (.str l) = .str l := by
      simp only [nullNorm]
      rw [if_neg (by rw [labels_not_null l hl]; simp)]
    rw [hnn]
    simp only [ct2San]
    rw [if_pos (by simpa [List.elem_iff] using hl)]

lemma witSan_idem (v : PyVal) : witSan (witSan v) = witSan v := by
  cases v <;> rfl

lemma tone_vals_valid : ∀ p ∈ tone_map, p.2 ∈ VALID_TONES := by decide

lemma mof_valid : S "matter-of-fact" ∈ VALID_TONES := by decide

lemma tones_fixed : ∀ t ∈ VALID_TONES,
    (t != ([] : List Nat)) = true ∧
    ((lowStr (strip t)).map (fun c => if c == 95 then 45 else c)) = t := by decide

lemma toneSan_str_eq {s : List Nat} (hz : (s != ([] : List Nat)) = true) :
    toneSan (.str s) =
      (if VALID_TONES.contains ((lowStr (strip s)).map (fun c => if c == 95 then 45 else c))
       then PyVal.str ((lowStr (strip s)).map (fun c => if c == 95 then 45 else c))
       else .str ((alist.lookup tone_map
              ((lowStr (strip s)).map (fun c => if c == 95 then 45 else c))).getD
            (S "matter-of-fact"))) := by
  simp only [toneSan, PyVal.truthy]
  rw [if_pos hz]

lemma toneSan_out (v : PyVal) : ∃ t, toneSan v = .str t ∧ t ∈ VALID_TONES := by
  cases v with
  | none => exact ⟨S "matter-of-fact", rfl, mof_valid⟩
  | bool b =>
    cases b
    · exact ⟨S "matter-of-fact", rfl, mof_valid⟩
    · exact ⟨S "matter-of-fact", rfl, mof_valid⟩
  | int n =>
    simp only [toneSan, PyVal.truthy]
    by_cases hz : (n != 0) = true
    · rw [if_pos hz]
      exact ⟨S "matter-of-fact", rfl, mof_valid⟩
    · rw [if_neg hz]
      exact ⟨S "matter-of-fact", rfl, mof_valid⟩
  | str s =>
    by_cases hz : (s != ([] : List Nat)) = true
    · rw [toneSan_str_eq hz]
      by_cases hc : VALID_TONES.contains
          ((lowStr (strip s)).map (fun c => if c == 95 then 45 else c)) = true
      · rw [if_pos hc]
        exact ⟨_, rfl, by simpa [List.elem_iff] using hc⟩
      · rw [if_neg hc]
        rcases hlk : alist.lookup tone_map
            ((lowStr (strip s)).map (fun c => if c == 95 then 45 else c)) with _ | r
        · exact ⟨S "matter-of-fact", rfl, mof_valid⟩
        · refine ⟨r, rfl, ?_⟩
          simp only [alist.lookup] at hlk
          rcases hfd : tone_map.find?
              (fun p => p.1 == ((lowStr (strip s)).map (fun c => if c == 95 then 45 else c)))
            with _ | p
          · rw [hfd] at hlk
            exact absurd hlk (by simp)
          · rw [hfd] at hlk
            simp only [Option.map] at hlk
            have hr := Option.some.inj hlk
            subst hr
            exact tone_vals_valid p (List.mem_of_find?_eq_some hfd)
    · have hs : s = [] := by
        simpa using hz
      subst hs
      exact ⟨S "matter-of-fact", rfl, mof_valid⟩

lemma toneSan_fix {t : List Nat} (ht : t ∈ VALID_TONES) : toneSan (.str t) = .str t := by
  obtain ⟨hne, hfx⟩ := tones_fixed t ht
  rw [toneSan_str_eq hne, hfx]
  rw [if_pos (by simpa [List.elem_iff] using ht)]

lemma toneSan_idem (v : PyVal) : toneSan (toneSan v) = toneSan v := by
  obtain ⟨t, hto, ht⟩ := toneSan_out v
  rw [hto]
  exact toneSan_fix ht

/-- The all-absent input record: every key the sanitizer reads is missing
(modelled as None, matching `dict.get`). -/
def emptyCall : CallRec := {}

/-- The sanitizer's output on `emptyCall`, a fixed point of the sanitizer. -/
def sanFixed : CallRec :=
  { call_type := .str (S "Other"),
    involves_other_witnesses := .bool false,
    caller_emotional_tone := .str (S "matter-of-fact") }

/-- C6 (amended): on every record it completes, the sanitizer is idempotent
EXCEPT through the time rule: a second pass reproduces every field of the
first pass's output verbatim whenever the produced time_of_event is not a
three-digit-hour clock string (the one output shape, e.g. "107:00" from
"95 pm", that the time rule rewrites again).  Null coercion, state and
country normalization, the category rules, the date, witness and tone rules
are each stable on their own output unconditionally. -/
theorem sanitize_idempotent (call r : CallRec) (h : _sanitize_call call = .ok r)
    (h6 : threeDigitHourTime r.time_of_event = false) :
    _sanitize_call r = .ok r := by
  obtain ⟨ctv, ct2v, hct, hct2, hr⟩ := sanitize_ok_inv h
  obtain ⟨s, hctv, hsmem⟩ := callTypeSan_ok_mem hct
  have hctfix : callTypeSan ctv = .ok ctv := by
    rw [hctv]
    exact callTypeSan_mem_eq hsmem
  have hct2fix : ct2San (nullNorm ct2v) = .ok ct2v := ct2San_stable hct2
  have h6' : threeDigitHourTime (timeSan (nullNorm call.time_of_event)) = false := by
    rw [hr] at h6
    exact h6
  have h1 : callTypeSan r.call_type = .ok ctv := by
    rw [hr]
    exact hctfix
  have h2 : ct2San (nullNorm r.call_type_secondary) = .ok ct2v := by
    rw [hr]
    exact hct2fix
  have hA1 : nullNorm r.caller_name = r.caller_name := by
    rw [hr]
    exact nullNorm_idem call.caller_name
  have hA2 : stateNorm (nullNorm r.state_or_region) = r.state_or_region := by
    rw [hr]
    exact stateNorm_stable call.state_or_region
  have hA3 : nullNorm r.city = r.city := by
    rw [hr]
    exact nullNorm_idem call.city
  have hA4 : (if isUSState (stateNorm (nullNorm r.state_or_region)) then PyVal.str (S "USA")
      else nullNorm r.country) = r.country := by
    rw [hA2, hr]
    show (if isUSState (stateNorm (nullNorm call.state_or_region)) then PyVal.str (S "USA")
          else nullNorm (if isUSState (stateNorm (nullNorm call.state_or_region))
                         then PyVal.str (S "USA")
                         else nullNorm call.country))
        = (if isUSState (stateNorm (nullNorm call.state_or_region)) then PyVal.str (S "USA")
           else nullNorm call.country)
    by_cases hus : isUSState (stateNorm (nullNorm call.state_or_region)) = true
    · rw [if_pos hus, if_pos hus]
    · rw [if_neg hus, if_neg hus]
      exact nullNorm_idem call.country
  have hA6 : dateSan (nullNorm r.date_of_event) = r.date_of_event := by
    rw [hr]
    exact dateSan_stable call.date_of_event
  have hA7 : timeSan (nullNorm r.time_of_event) = r.time_of_event := by
    rw [hr]
    exact timeSan_stable call.time_of_event h6'
  have hA8 : nullNorm r.setting = r.setting := by
    rw [hr]
    exact nullNorm_idem call.setting
  have hA9 : witSan r.involves_other_witnesses = r.involves_other_witnesses := by
    rw [hr]
    exact witSan_idem call.involves_other_witnesses
  have hA10 : toneSan r.caller_emotional_tone = r.caller_emotional_tone := by
    rw [hr]
    exact toneSan_idem call.caller_emotional_tone
  have hA11 : nullNorm r.derek_commentary = r.derek_commentary := by
    rw [hr]
    exact nullNorm_idem call.derek_commentary
  have hA12 : nullNorm r.caller_intro_snippet = r.caller_intro_snippet := by
    rw [hr]
    exact nullNorm_idem call.caller_intro_snippet
  have hA5 : ctv = r.call_type := by
    rw [hr]
  have hA5b : ct2v = r.call_type_secondary := by
    rw [hr]
  unfold _sanitize_call
  rw [h1, h2]
  refine congrArg Except.ok ?_
  rw [hA4, hA2, hA1, hA3, hA6, hA7, hA8, hA9, hA10, hA11, hA12, hA5, hA5b]

/-- Witness for `sanitize_idempotent`: the sanitizer maps the all-absent
record to `sanFixed`, whose time is None (so not a three-digit-hour clock
string), and a second pass reproduces `sanFixed` exactly. -/
theorem sanitize_idempotent_witness :
    _sanitize_call emptyCall = .ok sanFixed ∧
    threeDigitHourTime sanFixed.time_of_event = false ∧
    _sanitize_call sanFixed = .ok sanFixed :=
  ⟨rfl, rfl, sanitize_idempotent emptyCall sanFixed rfl rfl⟩
